import Mathlib

/-!
Verification development for the PatentAnalyzer repository.

This file gives a shallow embedding, in Lean 4, of the query-composition core
of `main/models.py`: the `Patent.filter` static method (criteria bundle →
composed query → result set), the CPC-hierarchy de-duplication loop it runs,
the `Patent.fetch_representation` aggregation pass and the
`Patent.approximate_count` fast path, together with the relational schema
they operate on.

Modelling conventions:
* The criteria bundle (`data: dict`) is modelled as an association list of
  string keys and form values (`FormData`); indexing a missing key yields a
  `keyError`, exactly as a Python `dict` raises `KeyError`.
* Django `Q` objects are modelled by a small expression tree `Q` whose leaves
  record the lookup path string and the lookup operation.  Building the query
  mirrors `Patent.filter` line by line; executing it models the SQL emitted by
  the Django ORM: one join per referenced to-many relation, so a patent row is
  returned once per combination of related rows satisfying the relational
  fragments (Django adds no DISTINCT here), and a lookup path that does not
  resolve against the schema raises a field error at query-build time, before
  any row is inspected.
* Dates are encoded as integers (e.g. days since an epoch, always nonzero),
  database integers as `Int`, and geographic points as integer coordinate
  pairs; the spatial engine behind `distance_lte` is external to the
  repository, so `pointWithinRadius` stands in for it (the claims never
  depend on the metric itself).
* The case-insensitive POSIX regex operator behind `__iregex` is interpreted
  by `iregexMatch` for exactly the pattern shapes this module generates: a
  parenthesised alternation of literal branches, optionally anchored at the
  start with `^`.
-/

set_option autoImplicit false

/-- Errors a `Patent.filter` call can raise: a missing dictionary key
(Python `KeyError`), a value of the wrong shape (Python `TypeError` /
`AttributeError`), or an unresolvable lookup path (Django `FieldError`). -/
inductive PyError where
  | keyError (key : String)
  | typeError
  | fieldError (field : String)
  deriving DecidableEq, Repr

/-- A value stored in the criteria bundle: `None`, a string, a list of
strings, a min/max range dictionary, a boolean, or a location dictionary
with `lat`, `lng` and `radius` entries. -/
inductive FormValue where
  | null
  | str (s : String)
  | strList (l : List String)
  | rangeVal (min max : Option Int)
  | boolVal (b : Bool)
  | locVal (lat lng radius : Int)
  deriving DecidableEq, Repr

namespace FormValue

/-- Python truthiness of a form value: `None`, the empty string, the empty
list and `False` are falsy; a range dictionary and a location dictionary
(nonempty dicts) are truthy. -/
def truthy : FormValue → Bool
  | null => false
  | str s => s ≠ ""
  | strList l => l ≠ []
  | rangeVal _ _ => true
  | boolVal b => b
  | locVal _ _ _ => true

/-- Python `value is None`. -/
def isNull : FormValue → Bool
  | null => true
  | _ => false

end FormValue

/-- The criteria bundle: a Python `dict` keyed by dimension name, in
insertion order. -/
def FormData := List (String × FormValue)
  deriving DecidableEq, Repr

namespace FormData

/-- `data[k]`: the value at key `k`, raising `KeyError` when absent. -/
def get : FormData → String → Except PyError FormValue
  | [], k => .error (.keyError k)
  | (k', v) :: rest, k => if k' = k then .ok v else get rest k

/-- `data[k] = v`: replace the value at key `k` (dicts keep insertion order),
appending the pair when the key is new. -/
def set : FormData → String → FormValue → FormData
  | [], k, v => [(k, v)]
  | (k', v') :: rest, k, v =>
      if k' = k then (k, v) :: rest else (k', v') :: set rest k v

end FormData

/-- Reading a form value as a string (`TypeError`-style failure otherwise,
as when Python calls a `str` method on a non-string). -/
def getStr : FormValue → Except PyError String
  | .str s => .ok s
  | _ => .error .typeError

/-- Reading a form value as a list of strings. -/
def getStrList : FormValue → Except PyError (List String)
  | .strList l => .ok l
  | _ => .error .typeError

/-- Reading a form value as a location dictionary, giving
`(lat, lng, radius)`. -/
def getLoc : FormValue → Except PyError (Int × Int × Int)
  | .locVal lat lng radius => .ok (lat, lng, radius)
  | _ => .error .typeError

/-! ## The relational schema (`main/models.py`) -/

/-- `CPCSection`: primary key `section` (e.g. "A") and a title (`section` is
a reserved word in Lean, hence the trailing underscore). -/
structure CPCSection where
  section_ : String
  title : String
  deriving DecidableEq, Repr

/-- `CPCClass`: foreign key to a section, primary key `_class` (e.g. "A63"). -/
structure CPCClass where
  section_ : String
  _class : String
  title : String
  deriving DecidableEq, Repr

/-- `CPCSubclass`: foreign key to a class, primary key `subclass`
(e.g. "A63B"). -/
structure CPCSubclass where
  _class : String
  subclass : String
  title : String
  deriving DecidableEq, Repr

/-- `CPCGroup`: foreign key to a subclass, primary key `group`
(e.g. "A63B71/146"). -/
structure CPCGroup where
  subclass : String
  group : String
  title : String
  deriving DecidableEq, Repr

/-- The `Patent` row.  `id` is Django's implicit auto primary key; dates are
integers (days since an epoch).  The nullable precomputed columns
(`granted_year`, word counts, entity counts, the cached `representation`
string, ...) are populated out of band, and are neither read nor written by
`filter` / `fetch_representation` / `approximate_count`, so they are not
repeated here. -/
structure Patent where
  id : Nat
  office : String
  office_patent_id : String
  type : Option String
  application_filed_date : Option Int
  granted_date : Int
  title : String
  abstract_processed : Option String
  claims_count : Int
  figures_count : Option Int
  sheets_count : Option Int
  withdrawn : Bool
  deriving DecidableEq, Repr

/-- `PatentCPCGroup`: join row between a patent and a CPC group; the
foreign key `cpc_group` stores the group's primary key string. -/
structure PatentCPCGroup where
  patent : Nat
  cpc_group : String
  deriving DecidableEq, Repr

/-- `PCTData`: international filing data owned by one patent. -/
structure PCTData where
  patent : Nat
  pct_id : String
  published_or_filed_date : Int
  filed_country : String
  granted : Bool
  representation : Option String
  deriving DecidableEq, Repr

/-- `Location`: geocoded place; `point` is the (x, y) = (lng, lat)
coordinate pair, when geocoded. -/
structure Location where
  id : Nat
  country_code : Option String
  state : Option String
  city : Option String
  point : Option (Int × Int)
  deriving DecidableEq, Repr

/-- `Inventor`: belongs to one patent, optionally references one location. -/
structure Inventor where
  patent : Nat
  location : Option Nat
  first_name : Option String
  last_name : Option String
  male : Option Bool
  deriving DecidableEq, Repr

/-- `Assignee`: belongs to one patent, optionally references one location. -/
structure Assignee where
  patent : Nat
  location : Option Nat
  first_name : Option String
  last_name : Option String
  organization : Option String
  deriving DecidableEq, Repr

/-- A read-only datastore snapshot: the table contents plus the planner
statistics (`pg_class.reltuples`, keyed by table name) that
`approximate_count` reads. -/
structure DB where
  patents : List Patent
  patent_cpc_groups : List PatentCPCGroup
  pct_data : List PCTData
  inventors : List Inventor
  assignees : List Assignee
  locations : List Location
  planner_stats : List (String × Int)
  deriving DecidableEq, Repr

/-! ## String primitives

Python `str.startswith` and the datastore's case-insensitive POSIX regex
operator (`~*`, reached through Django's `__iregex` lookup) are interpreted
over the character lists of the strings involved. -/

/-- Python `s.startswith(pre)`. -/
def pyStartsWith (s pre : String) : Bool :=
  pre.data.isPrefixOf s.data

/-- Lower-case a string character by character (ASCII case folding, which is
what the generated patterns exercise). -/
def toLowerStr (s : String) : String :=
  ⟨s.data.map Char.toLower⟩

/-- Case-insensitive "starts with". -/
def ciStartsWith (s pre : String) : Bool :=
  pyStartsWith (toLowerStr s) (toLowerStr pre)

/-- Does `cs` contain `sub` as a contiguous sublist? -/
def listContainsSub (sub : List Char) : List Char → Bool
  | [] => sub.isEmpty
  | c :: rest => sub.isPrefixOf (c :: rest) || listContainsSub sub rest

/-- Case-insensitive substring containment. -/
def ciContains (s sub : String) : Bool :=
  listContainsSub (toLowerStr sub).data (toLowerStr s).data

/-- Split a character list at every `|`, the alternation separator of the
generated regex patterns. -/
def splitPipeAux : List Char → List Char → List String
  | [], acc => [⟨acc.reverse⟩]
  | c :: rest, acc =>
      if c = '|' then ⟨acc.reverse⟩ :: splitPipeAux rest []
      else splitPipeAux rest (c :: acc)

/-- The alternation branches of a regex body. -/
def splitPipe (s : String) : List String :=
  splitPipeAux s.data []

/-- Case-insensitive POSIX regex matching, interpreted for exactly the
pattern shapes `Patent.filter` generates: `^(b₁|…|bₙ)` matches a string
starting with some branch, `(b₁|…|bₙ)` matches a string containing some
branch, each branch being a literal. -/
def iregexMatch (pat s : String) : Bool :=
  let cs := pat.data
  if cs.take 2 = ['^', '('] ∧ cs.getLast? = some ')' then
    (splitPipeAux ((cs.drop 2).dropLast) []).any (fun alt => ciStartsWith s alt)
  else if cs.take 1 = ['('] ∧ cs.getLast? = some ')' then
    (splitPipeAux ((cs.drop 1).dropLast) []).any (fun alt => ciContains s alt)
  else false

/-- The external spatial engine's predicate "`p` lies within `radius` of
`center`" (spec §9 abstracts it as `pointWithinRadius`); a squared-distance
comparison on the integer coordinates stands in for it, the claims being
independent of the metric. -/
def pointWithinRadius (px py cx cy radius : Int) : Bool :=
  (px - cx) ^ 2 + (py - cy) ^ 2 ≤ radius ^ 2

/-! ## Django `Q` objects -/

/-- A lookup operation attached to a lookup path: equality against a form
value, `__gte` / `__lte` bounds, `__iregex`, `__in`, or
`__distance_lte` with the centre `Point(lng, lat)` and a radius in metres. -/
inductive CondOp where
  | eqVal (v : FormValue)
  | gte (v : Int)
  | lte (v : Int)
  | iregex (pat : String)
  | inStr (vs : List String)
  | distLte (lng lat radius : Int)
  deriving DecidableEq, Repr

/-- A Django `Q` object: the empty (always-true) `Q()`, a single
`Q(path__lookup=value)` condition, or a conjunction / disjunction. -/
inductive Q where
  | tt
  | cond (field : String) (op : CondOp)
  | and (a b : Q)
  | or (a b : Q)
  deriving DecidableEq, Repr

namespace Q

/-- The list of leaf conditions of a `Q` object, left to right. -/
def conds : Q → List (String × CondOp)
  | tt => []
  | cond f op => [(f, op)]
  | and a b => conds a ++ conds b
  | or a b => conds a ++ conds b

/-- Whether the `Q` object carries any condition at all (an unconditioned
fragment adds neither a WHERE clause nor a join). -/
def hasConds (q : Q) : Bool :=
  q.conds ≠ []

end Q

/-- The lookup paths `Patent.filter` could produce that resolve against the
schema: the concrete fields of `Patent` and the paths through its to-many
relations used by the five query fragments.  `Patent` declares
`abstract_processed` — there is no field or relation named `abstract`. -/
def validLookupPaths : List String :=
  ["office", "office_patent_id", "type", "application_filed_date",
   "granted_date", "title", "abstract_processed", "claims_count",
   "figures_count", "sheets_count", "withdrawn",
   "cpc_groups__cpc_group__group", "cpc_groups__cpc_group",
   "pct_data__published_or_filed_date", "pct_data__granted",
   "inventors__first_name", "inventors__last_name", "inventors__male",
   "inventors__location__point",
   "assignees__first_name", "assignees__last_name",
   "assignees__organization", "assignees__location__point"]

/-- Django resolves every lookup path of the composed query when
`Patent.objects.filter(query)` is called, raising `FieldError` on the first
path that does not resolve — before any row is read. -/
def validateQ : Q → Except PyError Unit
  | .tt => .ok ()
  | .cond f _ => if validLookupPaths.contains f then .ok () else .error (.fieldError f)
  | .and a b => do validateQ a; validateQ b
  | .or a b => do validateQ a; validateQ b

/-- Evaluate a `Q` object with a given leaf interpreter; SQL three-valued
logic has already been collapsed by the interpreters (a NULL comparison
never matches). -/
def evalQ (ev : String → CondOp → Except PyError Bool) : Q → Except PyError Bool
  | .tt => pure true
  | .cond f op => ev f op
  | .and a b => do
      let x ← evalQ ev a
      let y ← evalQ ev b
      pure (x && y)
  | .or a b => do
      let x ← evalQ ev a
      let y ← evalQ ev b
      pure (x || y)

/-- SQL `field >= v` on a nullable column: NULL never matches. -/
def optGte (o : Option Int) (v : Int) : Bool :=
  match o with
  | some d => v ≤ d
  | none => false

/-- SQL `field <= v` on a nullable column: NULL never matches. -/
def optLte (o : Option Int) (v : Int) : Bool :=
  match o with
  | some d => d ≤ v
  | none => false

/-- Interpret a condition of the patent-attribute fragment on one `Patent`
row.  A path that is not a local `Patent` column (in particular `abstract`)
cannot be interpreted. -/
def evalPatentCond (p : Patent) (f : String) (op : CondOp) : Except PyError Bool :=
  match f, op with
  | "office", .eqVal (.str s) => pure (p.office == s)
  | "type", .eqVal (.str s) => pure (p.type == some s)
  | "withdrawn", .eqVal (.boolVal b) => pure (p.withdrawn == b)
  | "application_filed_date", .gte v => pure (optGte p.application_filed_date v)
  | "application_filed_date", .lte v => pure (optLte p.application_filed_date v)
  | "granted_date", .gte v => pure (decide (v ≤ p.granted_date))
  | "granted_date", .lte v => pure (decide (p.granted_date ≤ v))
  | "figures_count", .gte v => pure (optGte p.figures_count v)
  | "figures_count", .lte v => pure (optLte p.figures_count v)
  | "claims_count", .gte v => pure (decide (v ≤ p.claims_count))
  | "claims_count", .lte v => pure (decide (p.claims_count ≤ v))
  | "sheets_count", .gte v => pure (optGte p.sheets_count v)
  | "sheets_count", .lte v => pure (optLte p.sheets_count v)
  | "title", .iregex pat => pure (iregexMatch pat p.title)
  | "abstract_processed", .iregex pat =>
      pure (match p.abstract_processed with
            | some a => iregexMatch pat a
            | none => false)
  | _, _ => .error (.fieldError f)

/-- Interpret a condition of the classification fragment on one
`PatentCPCGroup` join row (the joined `CPCGroup`'s primary key `group` is
the join row's foreign-key string, referential integrity holding). -/
def evalCpcCond (r : PatentCPCGroup) (f : String) (op : CondOp) : Except PyError Bool :=
  match f, op with
  | "cpc_groups__cpc_group__group", .iregex pat => pure (iregexMatch pat r.cpc_group)
  | "cpc_groups__cpc_group", .inStr gs => pure (gs.contains r.cpc_group)
  | _, _ => .error (.fieldError f)

/-- Interpret a condition of the international-filing fragment on one
`PCTData` row. -/
def evalPctCond (r : PCTData) (f : String) (op : CondOp) : Except PyError Bool :=
  match f, op with
  | "pct_data__published_or_filed_date", .gte v =>
      pure (decide (v ≤ r.published_or_filed_date))
  | "pct_data__published_or_filed_date", .lte v =>
      pure (decide (r.published_or_filed_date ≤ v))
  | "pct_data__granted", .eqVal (.boolVal b) => pure (r.granted == b)
  | _, _ => .error (.fieldError f)

/-- The geocoded point of the location referenced by a related row, if any. -/
def locPointOf (db : DB) (loc : Option Nat) : Option (Int × Int) :=
  match loc with
  | some lid =>
      match db.locations.find? (fun l => l.id == lid) with
      | some l => l.point
      | none => none
  | none => none

/-- Whether an inventor's location lies within `radius` of
`Point(lng, lat)`; an inventor without a geocoded location never matches. -/
def invWithin (db : DB) (i : Inventor) (lng lat radius : Int) : Bool :=
  match locPointOf db i.location with
  | some (x, y) => pointWithinRadius x y lng lat radius
  | none => false

/-- Interpret a condition of the inventor fragment on one `Inventor` row. -/
def evalInvCond (db : DB) (i : Inventor) (f : String) (op : CondOp) : Except PyError Bool :=
  match f, op with
  | "inventors__first_name", .iregex pat =>
      pure (match i.first_name with
            | some s => iregexMatch pat s
            | none => false)
  | "inventors__last_name", .inStr vs =>
      pure (match i.last_name with
            | some s => vs.contains s
            | none => false)
  | "inventors__male", .eqVal (.boolVal b) => pure (i.male == some b)
  | "inventors__location__point", .distLte lng lat radius =>
      pure (invWithin db i lng lat radius)
  | _, _ => .error (.fieldError f)

/-- Whether an assignee's location lies within `radius` of
`Point(lng, lat)`. -/
def asgWithin (db : DB) (a : Assignee) (lng lat radius : Int) : Bool :=
  match locPointOf db a.location with
  | some (x, y) => pointWithinRadius x y lng lat radius
  | none => false

/-- Interpret a condition of the assignee fragment on one `Assignee` row. -/
def evalAsgCond (db : DB) (a : Assignee) (f : String) (op : CondOp) : Except PyError Bool :=
  match f, op with
  | "assignees__first_name", .iregex pat =>
      pure (match a.first_name with
            | some s => iregexMatch pat s
            | none => false)
  | "assignees__last_name", .inStr vs =>
      pure (match a.last_name with
            | some s => vs.contains s
            | none => false)
  | "assignees__organization", .inStr vs =>
      pure (match a.organization with
            | some s => vs.contains s
            | none => false)
  | "assignees__location__point", .distLte lng lat radius =>
      pure (asgWithin db a lng lat radius)
  | _, _ => .error (.fieldError f)

/-! ## Building the query (`Patent.filter`, lines 208–325) -/

/-- `exact_query(field, value)`: `Q(**{field: value}) if value else Q()`. -/
def exact_query (field : String) (value : FormValue) : Q :=
  if value.truthy then Q.cond field (.eqVal value) else Q.tt

/-- Python truthiness of a range bound: `None` and `0` are falsy (dates,
encoded as nonzero integers, are always truthy). -/
def boundTruthy (o : Option Int) : Bool :=
  match o with
  | some n => n ≠ 0
  | none => false

/-- `range_query(field, value)`: starts from `Q()`, and when the value is
truthy conjoins `field__gte` for a truthy `value["min"]` and `field__lte`
for a truthy `value["max"]`; subscripting a truthy non-dictionary raises. -/
def range_query (field : String) (value : FormValue) : Except PyError Q :=
  if value.truthy then
    match value with
    | .rangeVal mn mx =>
        let q := Q.tt
        let q := if boundTruthy mn then q.and (.cond field (.gte (mn.getD 0))) else q
        let q := if boundTruthy mx then q.and (.cond field (.lte (mx.getD 0))) else q
        .ok q
    | _ => .error .typeError
  else .ok .tt

/-- Lines 232–250: the patent-attribute fragment.  The keyword regex is the
keyword list joined with the logic token, parenthesised, and matched with
`__iregex` against `title` OR against a field named `abstract`. -/
def buildPatentQuery (data : FormData) : Except PyError Q := do
  let logic ← getStr (← data.get "patent_keywords_logic")
  let kws ← getStrList (← data.get "patent_keywords")
  let keywords := String.intercalate logic kws
  let q0 := exact_query "office" (← data.get "patent_office")
  let q1 := q0.and (exact_query "type" (← data.get "patent_type"))
  let q2 := q1.and (← range_query "application_filed_date"
                      (← data.get "patent_application_filed_date"))
  let q3 := q2.and (← range_query "granted_date" (← data.get "patent_granted_date"))
  let q4 := q3.and (← range_query "figures_count" (← data.get "patent_figures_count"))
  let q5 := q4.and (← range_query "claims_count" (← data.get "patent_claims_count"))
  let q6 := q5.and (← range_query "sheets_count" (← data.get "patent_sheets_count"))
  let withdrawn ← data.get "patent_withdrawn"
  let q7 := if withdrawn.isNull then q6
            else q6.and (.cond "withdrawn" (.eqVal withdrawn))
  let q8 := if kws ≠ [] then
              q7.and ((Q.cond "title" (.iregex ("(" ++ keywords ++ ")"))).or
                      (Q.cond "abstract" (.iregex ("(" ++ keywords ++ ")"))))
            else q7
  return q8

/-! ### Hierarchy de-duplication (lines 252–263)

For each level, and for each strictly finer level below it, every keyword of
the finer level that starts with a selected key of the coarser level is
removed — by reassigning the finer level's entry of `data`.  The loop over
the fixed four-element `hierarchies` list is unrolled into its six
(coarser, finer) pairs, in loop order. -/

/-- The inner comprehension, once per key of the coarser level:
`data[below] = [kw for kw in data[below] if not kw.startswith(key)]`. -/
def pruneKeys (below : String) : List String → FormData → Except PyError FormData
  | [], d => .ok d
  | key :: rest, d => do
      let cur ← getStrList (← d.get below)
      pruneKeys below rest
        (d.set below (.strList (cur.filter (fun kw => !pyStartsWith kw key))))

/-- One (coarser level, finer level) pair of the de-duplication loop. -/
def pruneLevel (d : FormData) (level below : String) : Except PyError FormData := do
  let keys ← getStrList (← d.get level)
  pruneKeys below keys d

/-- The de-duplication loop over
`hierarchies = ["cpc_section", "cpc_class", "cpc_subclass", "cpc_group"]`,
mutating `data` (modelled by returning the updated bundle). -/
def dedupHierarchies (d : FormData) : Except PyError FormData := do
  let d ← pruneLevel d "cpc_section" "cpc_class"
  let d ← pruneLevel d "cpc_section" "cpc_subclass"
  let d ← pruneLevel d "cpc_section" "cpc_group"
  let d ← pruneLevel d "cpc_class" "cpc_subclass"
  let d ← pruneLevel d "cpc_class" "cpc_group"
  let d ← pruneLevel d "cpc_subclass" "cpc_group"
  return d

/-- Lines 265–279: the classification fragment, built from the
de-duplicated selections: a start-anchored alternation over each of the
three coarser levels, and set membership for the leaf group level. -/
def buildCpcQuery (data : FormData) : Except PyError Q := do
  let q0 := Q.tt
  let vSections ← data.get "cpc_section"
  let q1 ← if vSections.truthy then do
      let sections ← getStrList vSections
      pure (q0.and (.cond "cpc_groups__cpc_group__group"
              (.iregex ("^(" ++ String.intercalate "|" sections ++ ")"))))
    else pure q0
  let vClasses ← data.get "cpc_class"
  let q2 ← if vClasses.truthy then do
      let classes ← getStrList vClasses
      pure (q1.and (.cond "cpc_groups__cpc_group__group"
              (.iregex ("^(" ++ String.intercalate "|" classes ++ ")"))))
    else pure q1
  let vSubclasses ← data.get "cpc_subclass"
  let q3 ← if vSubclasses.truthy then do
      let subclasses ← getStrList vSubclasses
      pure (q2.and (.cond "cpc_groups__cpc_group__group"
              (.iregex ("^(" ++ String.intercalate "|" subclasses ++ ")"))))
    else pure q2
  let vGroups ← data.get "cpc_group"
  let q4 ← if vGroups.truthy then do
      let groups ← getStrList vGroups
      pure (q3.and (.cond "cpc_groups__cpc_group" (.inStr groups)))
    else pure q3
  return q4

/-- Lines 281–285: the international-filing fragment. -/
def buildPctQuery (data : FormData) : Except PyError Q := do
  let q0 ← range_query "pct_data__published_or_filed_date"
             (← data.get "pct_application_date")
  let g ← data.get "pct_granted"
  let q1 := if g.isNull then q0
            else q0.and (.cond "pct_data__granted" (.eqVal g))
  return q1

/-- Lines 287–302: the inventor fragment.  Note that the first-name entries
are joined with the empty separator (`''.join(...)`) inside one anchored
`__iregex` pattern. -/
def buildInventorQuery (data : FormData) : Except PyError Q := do
  let q0 := Q.tt
  let vFirst ← data.get "inventor_first_name"
  let q1 ← if vFirst.truthy then do
      let names ← getStrList vFirst
      pure (q0.and (.cond "inventors__first_name"
              (.iregex ("^(" ++ String.join names ++ ")"))))
    else pure q0
  let vLast ← data.get "inventor_last_name"
  let q2 ← if vLast.truthy then do
      let names ← getStrList vLast
      pure (q1.and (.cond "inventors__last_name" (.inStr names)))
    else pure q1
  let male ← data.get "inventor_male"
  let q3 := if male.isNull then q2
            else q2.and (.cond "inventors__male" (.eqVal male))
  let vLoc ← data.get "inventor_location"
  let q4 ← if vLoc.truthy then do
      let (lat, lng, radius) ← getLoc vLoc
      pure (q3.and (.cond "inventors__location__point" (.distLte lng lat radius)))
    else pure q3
  return q4

/-- Lines 304–321: the assignee fragment, built like the inventor fragment
plus organization set membership. -/
def buildAssigneeQuery (data : FormData) : Except PyError Q := do
  let q0 := Q.tt
  let vFirst ← data.get "assignee_first_name"
  let q1 ← if vFirst.truthy then do
      let names ← getStrList vFirst
      pure (q0.and (.cond "assignees__first_name"
              (.iregex ("^(" ++ String.join names ++ ")"))))
    else pure q0
  let vLast ← data.get "assignee_last_name"
  let q2 ← if vLast.truthy then do
      let names ← getStrList vLast
      pure (q1.and (.cond "assignees__last_name" (.inStr names)))
    else pure q1
  let vOrg ← data.get "assignee_organization"
  let q3 ← if vOrg.truthy then do
      let orgs ← getStrList vOrg
      pure (q2.and (.cond "assignees__organization" (.inStr orgs)))
    else pure q2
  let vLoc ← data.get "assignee_location"
  let q4 ← if vLoc.truthy then do
      let (lat, lng, radius) ← getLoc vLoc
      pure (q3.and (.cond "assignees__location__point" (.distLte lng lat radius)))
    else pure q3
  return q4

/-! ## Executing the query

`Patent.objects.filter(query)` compiles the composed `Q` into one SQL
statement: every lookup path is resolved first (`FieldError` otherwise);
each of the four to-many relations referenced by a fragment contributes one
join, reused by all conditions of that fragment, so a patent row is emitted
once per combination of related rows jointly satisfying the relational
fragments — Django adds no DISTINCT, so those duplicates stay. -/

/-- The number of rows of a related table satisfying a fragment.  A
fragment with no condition adds no join and contributes factor 1; otherwise
an INNER JOIN contributes one row per satisfying related row. -/
def relFactor {α : Type} (q : Q) (ev : α → String → CondOp → Except PyError Bool) :
    List α → Except PyError Nat
  | [] => .ok (if q.hasConds then 0 else 1)
  | x :: xs => do
      let n ← relFactor q ev xs
      if q.hasConds then
        let b ← evalQ (ev x) q
        pure (if b then n + 1 else n)
      else pure n

/-- How many times one patent appears in the filtered result set: zero when
its local attributes fail the patent fragment, otherwise the product of the
relational fan-out factors. -/
def patentMultiplicity (db : DB) (pq cq pctq iq aq : Q) (p : Patent) :
    Except PyError Nat := do
  let ok ← evalQ (evalPatentCond p) pq
  let f1 ← relFactor cq evalCpcCond
             (db.patent_cpc_groups.filter (fun r => r.patent == p.id))
  let f2 ← relFactor pctq evalPctCond
             (db.pct_data.filter (fun r => r.patent == p.id))
  let f3 ← relFactor iq (evalInvCond db)
             (db.inventors.filter (fun r => r.patent == p.id))
  let f4 ← relFactor aq (evalAsgCond db)
             (db.assignees.filter (fun r => r.patent == p.id))
  return if ok then f1 * f2 * f3 * f4 else 0

/-- Emit each patent of the table with its multiplicity, in table order. -/
def collectRows (db : DB) (pq cq pctq iq aq : Q) :
    List Patent → Except PyError (List Patent)
  | [] => .ok []
  | p :: ps => do
      let n ← patentMultiplicity db pq cq pctq iq aq p
      let rest ← collectRows db pq cq pctq iq aq ps
      return List.replicate n p ++ rest

/-- `Patent.objects.filter(patent_query & cpc_query & pct_query &
inventor_query & assignee_query)`: validate every lookup path of the
conjunction, then emit the rows. -/
def runFilter (db : DB) (pq cq pctq iq aq : Q) : Except PyError (List Patent) := do
  validateQ ((((pq.and cq).and pctq).and iq).and aq)
  collectRows db pq cq pctq iq aq db.patents

/-- `Patent.filter(data)` (lines 208–325).  The returned bundle is the state
of the caller's `data` dictionary after the call: the de-duplication loop
reassigns the finer classification entries in place. -/
def Patent.filter (data : FormData) (db : DB) :
    Except PyError (List Patent × FormData) := do
  let patent_query ← buildPatentQuery data
  let data ← dedupHierarchies data
  let cpc_query ← buildCpcQuery data
  let pct_query ← buildPctQuery data
  let inventor_query ← buildInventorQuery data
  let assignee_query ← buildAssigneeQuery data
  let result ← runFilter db patent_query cpc_query pct_query inventor_query
                 assignee_query
  return (result, data)

/-! ## `Patent.fetch_representation` (lines 327–386) -/

/-- First-occurrence de-duplication, the effect of `distinct=True` inside a
`StringAgg` (the entry order, like the datastore's, is a deterministic
function of the snapshot). -/
def dedupStrings : List String → List String
  | [] => []
  | x :: xs => x :: (dedupStrings xs).filter (fun y => y ≠ x)

/-- `StringAgg(expr, delimiter=d, distinct=True)` over the rows of one
patent: the distinct values joined with the delimiter, NULL (here `none`)
when the patent has no related row at all. -/
def stringAgg (delim : String) (vals : List String) : Option String :=
  match dedupStrings vals with
  | [] => none
  | l => some (String.intercalate delim l)

/-- `Concat` in Django converts NULL parts to the empty string before
concatenation. -/
def concatParts (parts : List (Option String)) : String :=
  String.join (parts.map (fun o => o.getD ""))

/-- The serialized `ST_X(point)|ST_Y(point)` coordinate pair of a related
row's location (both halves NULL, hence empty, without a geocoded point). -/
def pointRepr (db : DB) (loc : Option Nat) : String :=
  match locPointOf db loc with
  | some (x, y) => toString x ++ "|" ++ toString y
  | none => "|"

/-- One output row of `fetch_representation`: the patent plus its six
aggregate columns. -/
structure PatentRepresentation where
  patent : Patent
  cpc_groups_groups : Option String
  pct_documents : Option String
  inventor_names : Option String
  inventor_points : Option String
  assignee_names : Option String
  assignee_points : Option String
  deriving DecidableEq, Repr

/-- The classification group codes linked to one patent, in snapshot
order. -/
def patentGroupCodes (db : DB) (p : Patent) : List String :=
  (db.patent_cpc_groups.filter (fun r => r.patent == p.id)).map
    (fun r => r.cpc_group)

/-- The representations of one patent's PCT rows (NULL representations are
skipped by the aggregate). -/
def patentPctReprs (db : DB) (p : Patent) : List String :=
  (db.pct_data.filter (fun r => r.patent == p.id)).filterMap
    (fun r => r.representation)

/-- The values a `Concat`-based aggregate sees through the LEFT OUTER JOIN
of the annotation: one value per related row — or, when the patent has no
related row at all, the single value the all-NULL joined row produces
(`Concat` converts NULL parts to the empty string and never returns NULL,
so the aggregate still receives one non-NULL string). -/
def leftJoinVals {α : Type} (rows : List α) (f : α → String) (v : String) :
    List String :=
  match rows with
  | [] => [v]
  | _ => rows.map f

/-- One patent's inventors' full names, first and last space-joined; a
patent without inventors contributes the all-NULL row's concatenation
`" "`. -/
def patentInventorNames (db : DB) (p : Patent) : List String :=
  leftJoinVals (db.inventors.filter (fun r => r.patent == p.id))
    (fun i => concatParts [i.first_name, some " ", i.last_name])
    (concatParts [none, some " ", none])

/-- One patent's inventors' serialized location points; a patent without
inventors contributes the all-NULL row's `"|"`. -/
def patentInventorPoints (db : DB) (p : Patent) : List String :=
  leftJoinVals (db.inventors.filter (fun r => r.patent == p.id))
    (fun i => pointRepr db i.location) (pointRepr db none)

/-- One patent's assignees' full names: first, last and organization
space-joined; a patent without assignees contributes the all-NULL row's
`"  "`. -/
def patentAssigneeNames (db : DB) (p : Patent) : List String :=
  leftJoinVals (db.assignees.filter (fun r => r.patent == p.id))
    (fun a => concatParts [a.first_name, some " ", a.last_name, some " ",
                           a.organization])
    (concatParts [none, some " ", none, some " ", none])

/-- One patent's assignees' serialized location points; a patent without
assignees contributes the all-NULL row's `"|"`. -/
def patentAssigneePoints (db : DB) (p : Patent) : List String :=
  leftJoinVals (db.assignees.filter (fun r => r.patent == p.id))
    (fun a => pointRepr db a.location) (pointRepr db none)

/-- The six aggregates of one patent, computed over its related rows in
snapshot order. -/
def representationOf (db : DB) (p : Patent) : PatentRepresentation :=
  { patent := p
    cpc_groups_groups := stringAgg ", " (patentGroupCodes db p)
    pct_documents := stringAgg ", " (patentPctReprs db p)
    inventor_names := stringAgg ", " (patentInventorNames db p)
    inventor_points := stringAgg "," (patentInventorPoints db p)
    assignee_names := stringAgg ", " (patentAssigneeNames db p)
    assignee_points := stringAgg "," (patentAssigneePoints db p) }

/-- Keep the first row per patent id: the GROUP BY the aggregation adds
collapses duplicate patent rows of the input queryset. -/
def dedupById : List Patent → List Patent
  | [] => []
  | p :: ps => p :: (dedupById ps).filter (fun q => q.id ≠ p.id)

/-- Insert a patent into an id-sorted list, keeping it sorted. -/
def insertById (p : Patent) : List Patent → List Patent
  | [] => [p]
  | q :: qs => if p.id ≤ q.id then p :: q :: qs else q :: insertById p qs

/-- Sort patents by ascending id (`order_by("id")`). -/
def sortById : List Patent → List Patent
  | [] => []
  | p :: ps => insertById p (sortById ps)

/-- `Patent.fetch_representation(patents)` (lines 327–386): annotate each
patent of the (already filtered) set with the six `StringAgg` aggregates and
order the output by patent id (`order_by("id")`). -/
def Patent.fetch_representation (patents : List Patent) (db : DB) :
    List PatentRepresentation :=
  (sortById (dedupById patents)).map (representationOf db)

/-! ## `Patent.approximate_count` (lines 191–206) -/

/-- `SELECT reltuples FROM pg_class WHERE relname = 'main_patent'`: the
planner's row estimate for the whole patent table, read from the snapshot's
statistics; `fetchone()[0]` fails when the statistics row is missing. -/
def Patent.approximate_count (db : DB) : Except PyError Int :=
  match db.planner_stats.find? (fun r => r.1 == "main_patent") with
  | some r => .ok r.2
  | none => .error .typeError

/-! ## Fixtures shared by the theorems -/

/-- A criteria bundle with every dimension key present and empty/unset — the
shape the validated main form hands to `Patent.filter` when the user selects
nothing. -/
def emptyBundle : FormData :=
  [("patent_keywords_logic", .str "|"),
   ("patent_keywords", .strList []),
   ("patent_office", .str ""),
   ("patent_type", .str ""),
   ("patent_application_filed_date", .rangeVal none none),
   ("patent_granted_date", .rangeVal none none),
   ("patent_figures_count", .rangeVal none none),
   ("patent_claims_count", .rangeVal none none),
   ("patent_sheets_count", .rangeVal none none),
   ("patent_withdrawn", .null),
   ("cpc_section", .strList []),
   ("cpc_class", .strList []),
   ("cpc_subclass", .strList []),
   ("cpc_group", .strList []),
   ("pct_application_date", .rangeVal none none),
   ("pct_granted", .null),
   ("inventor_first_name", .strList []),
   ("inventor_last_name", .strList []),
   ("inventor_male", .null),
   ("inventor_location", .null),
   ("assignee_first_name", .strList []),
   ("assignee_last_name", .strList []),
   ("assignee_organization", .strList []),
   ("assignee_location", .null)]

/-- A minimal patent row used by the concrete counterexamples. -/
def samplePatent (i : Nat) : Patent :=
  { id := i
    office := "USPTO"
    office_patent_id := toString i
    type := some "utility"
    application_filed_date := some 18000
    granted_date := 18500
    title := "Golf glove"
    abstract_processed := some "a glove for golf"
    claims_count := 7
    figures_count := some 3
    sheets_count := some 2
    withdrawn := false }

/-- An empty datastore snapshot to be extended per counterexample. -/
def emptyDB : DB :=
  { patents := []
    patent_cpc_groups := []
    pct_data := []
    inventors := []
    assignees := []
    locations := []
    planner_stats := [("main_patent", 1000)] }

/-! ## Basic lemmas about the embedding -/

deriving instance DecidableEq for Except

theorem exBind_ok {ε α β : Type} (a : α) (f : α → Except ε β) :
    (Except.ok a >>= f) = f a := rfl

theorem exBind_error {ε α β : Type} (e : ε) (f : α → Except ε β) :
    ((Except.error e : Except ε α) >>= f) = .error e := rfl

theorem exBind_eq_ok {ε α β : Type} {a : Except ε α} {f : α → Except ε β} {v : β}
    (h : a >>= f = .ok v) : ∃ x, a = .ok x ∧ f x = .ok v := by
  cases a with
  | ok x => exact ⟨x, rfl, h⟩
  | error e => simp [exBind_error] at h

namespace FormData

theorem get_set_same (d : FormData) (k : String) (v : FormValue) :
    (d.set k v).get k = .ok v := by
  induction d with
  | nil => simp [set, get]
  | cons p rest ih =>
      by_cases h : p.1 = k
      · simp [set, get, h]
      · simp [set, get, h, ih]

theorem get_set_ne (d : FormData) (k k' : String) (v : FormValue) (h : k' ≠ k) :
    (d.set k v).get k' = d.get k' := by
  induction d with
  | nil => simp [set, get, h, Ne.symm h]
  | cons p rest ih =>
      obtain ⟨pk, pv⟩ := p
      by_cases hp : pk = k
      · simp [set, get, hp, h, Ne.symm h]
      · by_cases hp' : pk = k'
        · simp [set, get, hp, hp', h]
        · simp [set, get, hp, hp', ih]

theorem set_set_same (d : FormData) (k : String) (v w : FormValue) :
    (d.set k v).set k w = d.set k w := by
  induction d with
  | nil => simp [set]
  | cons p rest ih =>
      by_cases hp : p.1 = k
      · simp [set, hp]
      · simp [set, hp, ih]

theorem set_self {d : FormData} {k : String} {v : FormValue}
    (h : d.get k = .ok v) : d.set k v = d := by
  induction d with
  | nil => simp [get] at h
  | cons p rest ih =>
      obtain ⟨pk, pv⟩ := p
      by_cases hp : pk = k
      · simp [get, hp] at h
        simp [set, hp, ← h]
      · simp [get, hp] at h
        simp [set, hp, ih h]

end FormData

/-- `str.startswith` is transitive: a prefix of a prefix is a prefix. -/
theorem pyStartsWith_trans {a b c : String}
    (h1 : pyStartsWith b a) (h2 : pyStartsWith c b) : pyStartsWith c a := by
  simp only [pyStartsWith, List.isPrefixOf_iff_prefix] at *
  exact h1.trans h2

/-! ## Characterizing the de-duplication loop -/

/-- The pure effect of pruning a finer selection by every key of a coarser
selection, in loop order. -/
def foldPrune (keys cur : List String) : List String :=
  keys.foldl (fun acc key => acc.filter (fun kw => !pyStartsWith kw key)) cur

theorem mem_foldPrune {keys cur : List String} {kw : String} :
    kw ∈ foldPrune keys cur ↔
      kw ∈ cur ∧ ∀ key ∈ keys, ¬ pyStartsWith kw key := by
  induction keys generalizing cur with
  | nil => simp [foldPrune]
  | cons key rest ih =>
      simp only [foldPrune, List.foldl_cons] at *
      rw [ih]
      simp only [List.mem_filter, Bool.not_eq_true', List.forall_mem_cons]
      constructor
      · rintro ⟨⟨h1, h2⟩, h3⟩
        exact ⟨h1, by simp [h2], h3⟩
      · rintro ⟨h1, h2, h3⟩
        exact ⟨⟨h1, by simp [h2]⟩, h3⟩

theorem pruneKeys_eq {below : String} {keys : List String} {d : FormData}
    {cur : List String} (h : d.get below = .ok (.strList cur)) :
    pruneKeys below keys d = .ok (d.set below (.strList (foldPrune keys cur))) := by
  induction keys generalizing d cur with
  | nil => simp [pruneKeys, foldPrune, FormData.set_self h]
  | cons key rest ih =>
      simp only [pruneKeys, h, exBind_ok, getStrList]
      rw [ih (FormData.get_set_same d below _)]
      rw [FormData.set_set_same]
      rfl

theorem pruneLevel_eq {d : FormData} {level below : String}
    {keys cur : List String}
    (hl : d.get level = .ok (.strList keys))
    (hb : d.get below = .ok (.strList cur)) :
    pruneLevel d level below = .ok (d.set below (.strList (foldPrune keys cur))) := by
  simp only [pruneLevel, hl, exBind_ok, getStrList]
  exact pruneKeys_eq hb

theorem get_set_ne' {d : FormData} {k k' : String} {v : FormValue}
    {w : Except PyError FormValue} (h : k' ≠ k) (hg : d.get k' = w) :
    (d.set k v).get k' = w := by
  rw [FormData.get_set_ne d k k' v h]; exact hg

/-- The bundle state after the six (coarser, finer) pruning passes of the
de-duplication loop, written out in loop order. -/
def dedupResult (d : FormData) (S C U G : List String) : FormData :=
  (((((d.set "cpc_class" (.strList (foldPrune S C))).set "cpc_subclass"
      (.strList (foldPrune S U))).set "cpc_group"
      (.strList (foldPrune S G))).set "cpc_subclass"
      (.strList (foldPrune (foldPrune S C) (foldPrune S U)))).set "cpc_group"
      (.strList (foldPrune (foldPrune S C) (foldPrune S G)))).set "cpc_group"
      (.strList (foldPrune (foldPrune (foldPrune S C) (foldPrune S U))
                 (foldPrune (foldPrune S C) (foldPrune S G))))

theorem dedup_eq {d : FormData} {S C U G : List String}
    (hS : d.get "cpc_section" = .ok (.strList S))
    (hC : d.get "cpc_class" = .ok (.strList C))
    (hU : d.get "cpc_subclass" = .ok (.strList U))
    (hG : d.get "cpc_group" = .ok (.strList G)) :
    dedupHierarchies d = .ok (dedupResult d S C U G) := by
  have e1 := pruneLevel_eq hS hC
  have d1S : (d.set "cpc_class" (FormValue.strList (foldPrune S C))).get "cpc_section" = Except.ok (FormValue.strList S) := get_set_ne' (by decide) hS
  have d1U : (d.set "cpc_class" (FormValue.strList (foldPrune S C))).get "cpc_subclass" = Except.ok (FormValue.strList U) := get_set_ne' (by decide) hU
  have d1G : (d.set "cpc_class" (FormValue.strList (foldPrune S C))).get "cpc_group" = Except.ok (FormValue.strList G) := get_set_ne' (by decide) hG
  have d1C : (d.set "cpc_class" (FormValue.strList (foldPrune S C))).get "cpc_class" = Except.ok (FormValue.strList (foldPrune S C)) :=
    FormData.get_set_same _ _ _
  have e2 := pruneLevel_eq d1S d1U
  have d2S : ((d.set "cpc_class" (FormValue.strList (foldPrune S C))).set "cpc_subclass" (FormValue.strList (foldPrune S U))).get "cpc_section" = Except.ok (FormValue.strList S) := get_set_ne' (by decide) d1S
  have d2C : ((d.set "cpc_class" (FormValue.strList (foldPrune S C))).set "cpc_subclass" (FormValue.strList (foldPrune S U))).get "cpc_class" = Except.ok (FormValue.strList (foldPrune S C)) :=
    get_set_ne' (by decide) d1C
  have d2G : ((d.set "cpc_class" (FormValue.strList (foldPrune S C))).set "cpc_subclass" (FormValue.strList (foldPrune S U))).get "cpc_group" = Except.ok (FormValue.strList G) := get_set_ne' (by decide) d1G
  have d2U : ((d.set "cpc_class" (FormValue.strList (foldPrune S C))).set "cpc_subclass" (FormValue.strList (foldPrune S U))).get "cpc_subclass" = Except.ok (FormValue.strList (foldPrune S U)) :=
    FormData.get_set_same _ _ _
  have e3 := pruneLevel_eq d2S d2G
  have d3C : (((d.set "cpc_class" (FormValue.strList (foldPrune S C))).set "cpc_subclass" (FormValue.strList (foldPrune S U))).set "cpc_group" (FormValue.strList (foldPrune S G))).get "cpc_class" = Except.ok (FormValue.strList (foldPrune S C)) :=
    get_set_ne' (by decide) d2C
  have d3U : (((d.set "cpc_class" (FormValue.strList (foldPrune S C))).set "cpc_subclass" (FormValue.strList (foldPrune S U))).set "cpc_group" (FormValue.strList (foldPrune S G))).get "cpc_subclass" = Except.ok (FormValue.strList (foldPrune S U)) :=
    get_set_ne' (by decide) d2U
  have d3G : (((d.set "cpc_class" (FormValue.strList (foldPrune S C))).set "cpc_subclass" (FormValue.strList (foldPrune S U))).set "cpc_group" (FormValue.strList (foldPrune S G))).get "cpc_group" = Except.ok (FormValue.strList (foldPrune S G)) :=
    FormData.get_set_same _ _ _
  have e4 := pruneLevel_eq d3C d3U
  have d4C : ((((d.set "cpc_class" (FormValue.strList (foldPrune S C))).set "cpc_subclass" (FormValue.strList (foldPrune S U))).set "cpc_group" (FormValue.strList (foldPrune S G))).set "cpc_subclass" (FormValue.strList (foldPrune (foldPrune S C) (foldPrune S U)))).get "cpc_class" = Except.ok (FormValue.strList (foldPrune S C)) :=
    get_set_ne' (by decide) d3C
  have d4G : ((((d.set "cpc_class" (FormValue.strList (foldPrune S C))).set "cpc_subclass" (FormValue.strList (foldPrune S U))).set "cpc_group" (FormValue.strList (foldPrune S G))).set "cpc_subclass" (FormValue.strList (foldPrune (foldPrune S C) (foldPrune S U)))).get "cpc_group" = Except.ok (FormValue.strList (foldPrune S G)) :=
    get_set_ne' (by decide) d3G
  have d4U : ((((d.set "cpc_class" (FormValue.strList (foldPrune S C))).set "cpc_subclass" (FormValue.strList (foldPrune S U))).set "cpc_group" (FormValue.strList (foldPrune S G))).set "cpc_subclass" (FormValue.strList (foldPrune (foldPrune S C) (foldPrune S U)))).get "cpc_subclass" = Except.ok (FormValue.strList (foldPrune (foldPrune S C) (foldPrune S U))) :=
    FormData.get_set_same _ _ _
  have e5 := pruneLevel_eq d4C d4G
  have d5U : (((((d.set "cpc_class" (FormValue.strList (foldPrune S C))).set "cpc_subclass" (FormValue.strList (foldPrune S U))).set "cpc_group" (FormValue.strList (foldPrune S G))).set "cpc_subclass" (FormValue.strList (foldPrune (foldPrune S C) (foldPrune S U)))).set "cpc_group" (FormValue.strList (foldPrune (foldPrune S C) (foldPrune S G)))).get "cpc_subclass" = Except.ok (FormValue.strList (foldPrune (foldPrune S C) (foldPrune S U))) :=
    get_set_ne' (by decide) d4U
  have d5G : (((((d.set "cpc_class" (FormValue.strList (foldPrune S C))).set "cpc_subclass" (FormValue.strList (foldPrune S U))).set "cpc_group" (FormValue.strList (foldPrune S G))).set "cpc_subclass" (FormValue.strList (foldPrune (foldPrune S C) (foldPrune S U)))).set "cpc_group" (FormValue.strList (foldPrune (foldPrune S C) (foldPrune S G)))).get "cpc_group" = Except.ok (FormValue.strList (foldPrune (foldPrune S C) (foldPrune S G))) :=
    FormData.get_set_same _ _ _
  have e6 := pruneLevel_eq d5U d5G
  simp only [dedupHierarchies, e1, exBind_ok, e2, e3, e4, e5, e6, dedupResult]
  rfl

theorem dedupResult_get_class (d : FormData) (S C U G : List String) :
    (dedupResult d S C U G).get "cpc_class" = .ok (.strList (foldPrune S C)) := by
  simp only [dedupResult]
  rw [FormData.get_set_ne _ _ _ _ (by decide), FormData.get_set_ne _ _ _ _ (by decide),
      FormData.get_set_ne _ _ _ _ (by decide), FormData.get_set_ne _ _ _ _ (by decide),
      FormData.get_set_ne _ _ _ _ (by decide)]
  exact FormData.get_set_same _ _ _

theorem dedupResult_get_subclass (d : FormData) (S C U G : List String) :
    (dedupResult d S C U G).get "cpc_subclass" =
      .ok (.strList (foldPrune (foldPrune S C) (foldPrune S U))) := by
  simp only [dedupResult]
  rw [FormData.get_set_ne _ _ _ _ (by decide), FormData.get_set_ne _ _ _ _ (by decide)]
  exact FormData.get_set_same _ _ _

theorem dedupResult_get_group (d : FormData) (S C U G : List String) :
    (dedupResult d S C U G).get "cpc_group" =
      .ok (.strList (foldPrune (foldPrune (foldPrune S C) (foldPrune S U))
                     (foldPrune (foldPrune S C) (foldPrune S G)))) := by
  simp only [dedupResult]
  exact FormData.get_set_same _ _ _

theorem dedupResult_get_other (d : FormData) (S C U G : List String) (k : String)
    (h1 : k ≠ "cpc_class") (h2 : k ≠ "cpc_subclass") (h3 : k ≠ "cpc_group") :
    (dedupResult d S C U G).get k = d.get k := by
  simp only [dedupResult]
  rw [FormData.get_set_ne _ _ _ _ h3, FormData.get_set_ne _ _ _ _ h3,
      FormData.get_set_ne _ _ _ _ h2, FormData.get_set_ne _ _ _ _ h3,
      FormData.get_set_ne _ _ _ _ h2, FormData.get_set_ne _ _ _ _ h1]

theorem mem_dedup_subclass {S C U : List String} {k : String} :
    k ∈ foldPrune (foldPrune S C) (foldPrune S U) ↔
      k ∈ U ∧ (∀ s ∈ S, ¬ pyStartsWith k s) ∧ (∀ c ∈ C, ¬ pyStartsWith k c) := by
  rw [mem_foldPrune, mem_foldPrune]
  constructor
  · rintro ⟨⟨hU, hS⟩, hC1⟩
    refine ⟨hU, hS, ?_⟩
    intro c hc hpre
    by_cases hcS : ∀ s ∈ S, ¬ pyStartsWith c s
    · exact hC1 c (mem_foldPrune.mpr ⟨hc, hcS⟩) hpre
    · push_neg at hcS
      obtain ⟨s, hs, hps⟩ := hcS
      exact hS s hs (pyStartsWith_trans hps hpre)
  · rintro ⟨hU, hS, hC⟩
    exact ⟨⟨hU, hS⟩, fun c hc => hC c (mem_foldPrune.mp hc).1⟩

theorem mem_dedup_group {S C U G : List String} {k : String} :
    k ∈ foldPrune (foldPrune (foldPrune S C) (foldPrune S U))
          (foldPrune (foldPrune S C) (foldPrune S G)) ↔
      k ∈ G ∧ (∀ s ∈ S, ¬ pyStartsWith k s) ∧ (∀ c ∈ C, ¬ pyStartsWith k c) ∧
        (∀ u ∈ U, ¬ pyStartsWith k u) := by
  rw [mem_foldPrune, mem_dedup_subclass]
  constructor
  · rintro ⟨⟨hG, hS, hC⟩, hU2⟩
    refine ⟨hG, hS, hC, ?_⟩
    intro u hu hpre
    by_cases huClean : (∀ s ∈ S, ¬ pyStartsWith u s) ∧ (∀ c ∈ C, ¬ pyStartsWith u c)
    · exact hU2 u (mem_dedup_subclass.mpr ⟨hu, huClean.1, huClean.2⟩) hpre
    · rw [Classical.not_and_iff_or_not_not] at huClean
      rcases huClean with h | h
      · push_neg at h
        obtain ⟨s, hs, hps⟩ := h
        exact hS s hs (pyStartsWith_trans hps hpre)
      · push_neg at h
        obtain ⟨c, hc, hpc⟩ := h
        exact hC c hc (pyStartsWith_trans hpc hpre)
  · rintro ⟨hG, hS, hC, hU⟩
    exact ⟨⟨hG, hS, hC⟩, fun u hu => hU u (mem_dedup_subclass.mp hu).1⟩

/-! ## Executing the query: helper lemmas -/

theorem relFactor_no_conds {α : Type} {q : Q} (h : q.hasConds = false)
    (ev : α → String → CondOp → Except PyError Bool) (xs : List α) :
    relFactor q ev xs = .ok 1 := by
  induction xs with
  | nil => simp [relFactor, h]
  | cons x xs ih => simp [relFactor, h, ih, exBind_ok]

theorem relFactor_count {α : Type} {q : Q} {ev : α → String → CondOp → Except PyError Bool}
    {f : α → Bool} (h : q.hasConds = true) :
    ∀ {xs : List α}, (∀ x ∈ xs, evalQ (ev x) q = .ok (f x)) →
      relFactor q ev xs = .ok (xs.countP f) := by
  intro xs
  induction xs with
  | nil => intro _; simp [relFactor, h]
  | cons x xs ih =>
      intro hev
      have hx := hev x (by simp)
      have hxs := ih (fun y hy => hev y (by simp [hy]))
      simp only [relFactor, hxs, exBind_ok, h, if_true, hx, List.countP_cons]
      by_cases hf : f x <;> simp [hf, Nat.add_comm, pure, Except.pure]

theorem collectRows_eq {db : DB} {pq cq pctq iq aq : Q} {m : Patent → Nat} :
    ∀ {ps : List Patent},
      (∀ p ∈ ps, patentMultiplicity db pq cq pctq iq aq p = .ok (m p)) →
      collectRows db pq cq pctq iq aq ps =
        .ok (ps.flatMap (fun p => List.replicate (m p) p)) := by
  intro ps
  induction ps with
  | nil => intro _; simp [collectRows]
  | cons p ps ih =>
      intro h
      have hp := h p (by simp)
      have hps := ih (fun y hy => h y (by simp [hy]))
      simp [collectRows, hp, hps, exBind_ok]

theorem runFilter_eq {db : DB} {pq cq pctq iq aq : Q} {m : Patent → Nat}
    (hv : validateQ ((((pq.and cq).and pctq).and iq).and aq) = .ok ())
    (h : ∀ p ∈ db.patents, patentMultiplicity db pq cq pctq iq aq p = .ok (m p)) :
    runFilter db pq cq pctq iq aq =
      .ok (db.patents.flatMap (fun p => List.replicate (m p) p)) := by
  simp only [runFilter, hv, exBind_ok]
  exact collectRows_eq h

theorem flatMap_replicate_one {α : Type} (ps : List α) :
    ps.flatMap (fun p => List.replicate 1 p) = ps := by
  induction ps with
  | nil => rfl
  | cons p ps ih => simp [List.flatMap_cons, ih, List.replicate]

theorem flatMap_replicate_filter {α : Type} (c : α → Bool) (ps : List α) :
    ps.flatMap (fun p => List.replicate (if c p then 1 else 0) p) = ps.filter c := by
  induction ps with
  | nil => rfl
  | cons p ps ih =>
      by_cases hc : c p <;> simp [List.flatMap_cons, List.filter_cons, hc, ih,
        List.replicate]

/-- Inverting a successful `Patent.filter` call: the bundle it returns is the
result of the de-duplication pass on its input. -/
theorem filter_ok_dedup {data : FormData} {db : DB} {res : List Patent}
    {d' : FormData} (h : Patent.filter data db = .ok (res, d')) :
    dedupHierarchies data = .ok d' := by
  unfold Patent.filter at h
  obtain ⟨pq, h1, h⟩ := exBind_eq_ok h
  obtain ⟨dd, h2, h⟩ := exBind_eq_ok h
  obtain ⟨cq, h3, h⟩ := exBind_eq_ok h
  obtain ⟨pctq, h4, h⟩ := exBind_eq_ok h
  obtain ⟨iq, h5, h⟩ := exBind_eq_ok h
  obtain ⟨aq, h6, h⟩ := exBind_eq_ok h
  obtain ⟨r, h7, h⟩ := exBind_eq_ok h
  have : dd = d' := by
    have := h
    simp only [pure, Except.pure] at this
    cases this
    rfl
  rw [h2, this]

theorem pruneKeys_get_ne {below : String} {k : String} (hk : k ≠ below) :
    ∀ {keys : List String} {d d' : FormData},
      pruneKeys below keys d = .ok d' → d'.get k = d.get k := by
  intro keys
  induction keys with
  | nil =>
      intro d d' h
      simp only [pruneKeys] at h
      cases h
      rfl
  | cons key rest ih =>
      intro d d' h
      simp only [pruneKeys] at h
      obtain ⟨v, h1, h⟩ := exBind_eq_ok h
      obtain ⟨cur, h2, h⟩ := exBind_eq_ok h
      rw [ih h]
      exact FormData.get_set_ne d below k _ hk

theorem pruneLevel_get_ne {d d' : FormData} {level below : String} {k : String}
    (hk : k ≠ below) (h : pruneLevel d level below = .ok d') :
    d'.get k = d.get k := by
  simp only [pruneLevel] at h
  obtain ⟨v, h1, h⟩ := exBind_eq_ok h
  obtain ⟨keys, h2, h⟩ := exBind_eq_ok h
  exact pruneKeys_get_ne hk h

/-- The de-duplication loop only ever reassigns the three finer
classification keys. -/
theorem dedup_get_ne {d d' : FormData} {k : String}
    (h1 : k ≠ "cpc_class") (h2 : k ≠ "cpc_subclass") (h3 : k ≠ "cpc_group")
    (h : dedupHierarchies d = .ok d') : d'.get k = d.get k := by
  simp only [dedupHierarchies] at h
  obtain ⟨e1, he1, h⟩ := exBind_eq_ok h
  obtain ⟨e2, he2, h⟩ := exBind_eq_ok h
  obtain ⟨e3, he3, h⟩ := exBind_eq_ok h
  obtain ⟨e4, he4, h⟩ := exBind_eq_ok h
  obtain ⟨e5, he5, h⟩ := exBind_eq_ok h
  obtain ⟨e6, he6, h⟩ := exBind_eq_ok h
  have hfin : e6 = d' := by
    simp only [pure, Except.pure] at h
    cases h
    rfl
  rw [← hfin]
  rw [pruneLevel_get_ne h3 he6, pruneLevel_get_ne h3 he5,
      pruneLevel_get_ne h2 he4, pruneLevel_get_ne h3 he3,
      pruneLevel_get_ne h2 he2, pruneLevel_get_ne h1 he1]

theorem dedupStrings_nodup (l : List String) : (dedupStrings l).Nodup := by
  induction l with
  | nil => simp [dedupStrings]
  | cons x xs ih =>
      simp only [dedupStrings, List.nodup_cons]
      refine ⟨fun hx => ?_, ih.filter _⟩
      simp [List.mem_filter] at hx

theorem mem_dedupStrings {l : List String} {x : String} :
    x ∈ dedupStrings l ↔ x ∈ l := by
  induction l with
  | nil => simp [dedupStrings]
  | cons y ys ih =>
      simp only [dedupStrings, List.mem_cons, List.mem_filter, ih]
      by_cases hxy : x = y
      · simp [hxy]
      · simp [hxy, ih]

theorem patentMultiplicity_eq {db : DB} {pq cq pctq iq aq : Q} {p : Patent}
    {b : Bool} {n1 n2 n3 n4 : Nat}
    (h : evalQ (evalPatentCond p) pq = .ok b)
    (h1 : relFactor cq evalCpcCond
            (db.patent_cpc_groups.filter (fun r => r.patent == p.id)) = .ok n1)
    (h2 : relFactor pctq evalPctCond
            (db.pct_data.filter (fun r => r.patent == p.id)) = .ok n2)
    (h3 : relFactor iq (evalInvCond db)
            (db.inventors.filter (fun r => r.patent == p.id)) = .ok n3)
    (h4 : relFactor aq (evalAsgCond db)
            (db.assignees.filter (fun r => r.patent == p.id)) = .ok n4) :
    patentMultiplicity db pq cq pctq iq aq p = .ok (if b then n1 * n2 * n3 * n4 else 0) := by
  simp only [patentMultiplicity, h, h1, h2, h3, h4, exBind_ok]
  rfl

theorem filter_builders {data d' : FormData} {db : DB} {pq cq pctq iq aq : Q}
    {r : List Patent}
    (h1 : buildPatentQuery data = .ok pq)
    (h2 : dedupHierarchies data = .ok d')
    (h3 : buildCpcQuery d' = .ok cq)
    (h4 : buildPctQuery d' = .ok pctq)
    (h5 : buildInventorQuery d' = .ok iq)
    (h6 : buildAssigneeQuery d' = .ok aq)
    (h7 : runFilter db pq cq pctq iq aq = .ok r) :
    Patent.filter data db = .ok (r, d') := by
  simp only [Patent.filter, h1, exBind_ok, h2, h3, h4, h5, h6, h7]
  rfl

/-! ## Claim C1 -/

/-- The keyword bundle of the spec's end-to-end example, reduced to its
keyword dimension: keywords `["golf", "tennis"]`, OR logic. -/
def kwBundle : FormData :=
  emptyBundle.set "patent_keywords" (.strList ["golf", "tennis"])

/-- Claim C1 (code bug): the spec says the keyword regex is matched against
the title field OR the processed-abstract field, but `Patent.filter` matches
it against a field named `abstract`, which does not exist on `Patent` (the
schema declares `abstract_processed`); hence, for every snapshot, supplying
any keyword makes `filter` raise `FieldError("abstract")` at query-build
time instead of filtering. -/
theorem c1_keyword_abstract_field_error (db : DB) :
    Patent.filter kwBundle db = .error (.fieldError "abstract") := rfl

/-! ## Claim C2 -/

/-- A one-patent snapshot for the concrete counterexamples. -/
def oneDB : DB := { emptyDB with patents := [samplePatent 1] }

/-- Claim C2, counterexample: a criteria bundle with every dimension key
absent (the empty dictionary) does not succeed — the very first dictionary
access raises `KeyError("patent_keywords_logic")`. -/
theorem c2_absent_keys_raise :
    Patent.filter [] oneDB = .error (.keyError "patent_keywords_logic") := rfl

/-- Shared helper: on the all-empty bundle every fragment is an empty `Q()`
conjunction, so every patent of the snapshot is returned exactly once and the
bundle is returned unchanged. -/
theorem filter_emptyBundle (db : DB) :
    Patent.filter emptyBundle db = .ok (db.patents, emptyBundle) := by
  refine filter_builders rfl rfl rfl rfl rfl rfl ?_
  have hm : ∀ p ∈ db.patents,
      patentMultiplicity db
        (((((((Q.tt.and .tt).and .tt).and .tt).and .tt).and .tt).and .tt))
        .tt .tt .tt .tt p = .ok 1 := by
    intro p _
    have hb : evalQ (evalPatentCond p)
        (((((((Q.tt.and .tt).and .tt).and .tt).and .tt).and .tt).and .tt)) =
        .ok true := rfl
    have hcq := relFactor_no_conds (q := Q.tt) rfl evalCpcCond
      (db.patent_cpc_groups.filter (fun r => r.patent == p.id))
    have hpct := relFactor_no_conds (q := Q.tt) rfl evalPctCond
      (db.pct_data.filter (fun r => r.patent == p.id))
    have hinv := relFactor_no_conds (q := Q.tt) rfl (evalInvCond db)
      (db.inventors.filter (fun r => r.patent == p.id))
    have hasg := relFactor_no_conds (q := Q.tt) rfl (evalAsgCond db)
      (db.assignees.filter (fun r => r.patent == p.id))
    have := patentMultiplicity_eq hb hcq hpct hinv hasg
    simpa using this
  have hv : validateQ
      (((((((((((Q.tt.and .tt).and .tt).and .tt).and .tt).and .tt).and .tt)).and
        .tt).and .tt).and .tt).and .tt) = .ok () := rfl
  have h := runFilter_eq (m := fun _ => 1) hv hm
  simp only [flatMap_replicate_one] at h
  exact h

/-- Claim C2 as amended: for every bundle in which every dimension key is
PRESENT with an empty/unset value, `filter` succeeds and returns the full
unfiltered patent set (and leaves the bundle unchanged); a bundle with a
dimension key absent instead raises `KeyError`. -/
theorem c2_empty_values_give_full_set (db : DB) :
    Patent.filter emptyBundle db = .ok (db.patents, emptyBundle) :=
  filter_emptyBundle db

/-! ## Claim C9 -/

/-- Claim C9: `approximate_count` is a deterministic function of the
datastore's planner statistics alone — two snapshots with the same
statistics give the same value regardless of their table contents (hence
two calls in immediate succession, with no intervening writes, agree), and
no filter criteria enter at all. -/
theorem c9_approximate_count_deterministic (d e : DB)
    (h : d.planner_stats = e.planner_stats) :
    Patent.approximate_count d = Patent.approximate_count e := by
  simp only [Patent.approximate_count, h]

/-- Witness for C9 at two concrete snapshots that differ in their patent
table but share their statistics. -/
theorem c9_approximate_count_deterministic_witness :
    oneDB.planner_stats = emptyDB.planner_stats ∧
      Patent.approximate_count oneDB = Patent.approximate_count emptyDB :=
  ⟨rfl, c9_approximate_count_deterministic oneDB emptyDB rfl⟩

/-! ## Claim C7 -/

/-- The bundle with `patent_withdrawn` explicitly `False`. -/
def withdrawnFalseBundle : FormData :=
  emptyBundle.set "patent_withdrawn" (.boolVal false)

/-- The bundle with `pct_granted` explicitly `False`. -/
def pctFalseBundle : FormData :=
  emptyBundle.set "pct_granted" (.boolVal false)

/-- The bundle with `inventor_male` explicitly `False`. -/
def maleFalseBundle : FormData :=
  emptyBundle.set "inventor_male" (.boolVal false)

/-- Shared helper: `patent_withdrawn = False` filters the patents whose
`withdrawn` column is false, once each. -/
theorem filter_withdrawnFalse (db : DB) :
    Patent.filter withdrawnFalseBundle db =
      .ok (db.patents.filter (fun p => p.withdrawn == false),
           withdrawnFalseBundle) := by
  refine filter_builders rfl rfl rfl rfl rfl rfl ?_
  have hm : ∀ p ∈ db.patents,
      patentMultiplicity db
        ((((((((Q.tt.and .tt).and .tt).and .tt).and .tt).and .tt).and .tt)).and
          (.cond "withdrawn" (.eqVal (.boolVal false))))
        .tt .tt .tt .tt p = .ok (if p.withdrawn == false then 1 else 0) := by
    intro p _
    have hb : evalQ (evalPatentCond p)
        ((((((((Q.tt.and .tt).and .tt).and .tt).and .tt).and .tt).and .tt)).and
          (.cond "withdrawn" (.eqVal (.boolVal false)))) =
        .ok (p.withdrawn == false) := rfl
    have hcq := relFactor_no_conds (q := Q.tt) rfl evalCpcCond
      (db.patent_cpc_groups.filter (fun r => r.patent == p.id))
    have hpct := relFactor_no_conds (q := Q.tt) rfl evalPctCond
      (db.pct_data.filter (fun r => r.patent == p.id))
    have hinv := relFactor_no_conds (q := Q.tt) rfl (evalInvCond db)
      (db.inventors.filter (fun r => r.patent == p.id))
    have hasg := relFactor_no_conds (q := Q.tt) rfl (evalAsgCond db)
      (db.assignees.filter (fun r => r.patent == p.id))
    have := patentMultiplicity_eq hb hcq hpct hinv hasg
    by_cases hw : p.withdrawn == false <;> simpa [hw] using this
  have hv : validateQ
      (((((((((((Q.tt.and .tt).and .tt).and .tt).and .tt).and .tt).and .tt).and
        (.cond "withdrawn" (.eqVal (.boolVal false)))).and .tt).and .tt).and
        .tt).and .tt) = .ok () := rfl
  have h := runFilter_eq (m := fun p => if p.withdrawn == false then 1 else 0) hv hm
  simp only [flatMap_replicate_filter] at h
  exact h

/-- Shared helper: `pct_granted = False` joins the PCT rows, so each patent
is returned once per PCT row with `granted = false` (zero such rows exclude
it). -/
theorem filter_pctFalse (db : DB) :
    Patent.filter pctFalseBundle db =
      .ok (db.patents.flatMap (fun p =>
             List.replicate ((db.pct_data.filter (fun r => r.patent == p.id)).countP
               (fun r => r.granted == false)) p),
           pctFalseBundle) := by
  refine filter_builders rfl rfl rfl rfl rfl rfl ?_
  have hm : ∀ p ∈ db.patents,
      patentMultiplicity db
        (((((((Q.tt.and .tt).and .tt).and .tt).and .tt).and .tt).and .tt))
        .tt (Q.tt.and (.cond "pct_data__granted" (.eqVal (.boolVal false))))
        .tt .tt p =
        .ok ((db.pct_data.filter (fun r => r.patent == p.id)).countP
              (fun r => r.granted == false)) := by
    intro p _
    have hb : evalQ (evalPatentCond p)
        (((((((Q.tt.and .tt).and .tt).and .tt).and .tt).and .tt).and .tt)) =
        .ok true := rfl
    have hcq := relFactor_no_conds (q := Q.tt) rfl evalCpcCond
      (db.patent_cpc_groups.filter (fun r => r.patent == p.id))
    have hev : ∀ x ∈ db.pct_data.filter (fun r => r.patent == p.id),
        evalQ (evalPctCond x)
          (Q.tt.and (.cond "pct_data__granted" (.eqVal (.boolVal false)))) =
          .ok (x.granted == false) := fun x _ => rfl
    have hpct := relFactor_count
      (q := Q.tt.and (.cond "pct_data__granted" (.eqVal (.boolVal false)))) rfl hev
    have hinv := relFactor_no_conds (q := Q.tt) rfl (evalInvCond db)
      (db.inventors.filter (fun r => r.patent == p.id))
    have hasg := relFactor_no_conds (q := Q.tt) rfl (evalAsgCond db)
      (db.assignees.filter (fun r => r.patent == p.id))
    have := patentMultiplicity_eq hb hcq hpct hinv hasg
    simpa using this
  have hv : validateQ
      ((((((((((Q.tt.and .tt).and .tt).and .tt).and .tt).and .tt).and .tt).and
        .tt).and (Q.tt.and (.cond "pct_data__granted" (.eqVal (.boolVal false))))).and
        .tt).and .tt) = .ok () := rfl
  have h := runFilter_eq
    (m := fun p => (db.pct_data.filter (fun r => r.patent == p.id)).countP
      (fun r => r.granted == false)) hv hm
  exact h

/-- Shared helper: `inventor_male = False` joins the inventor rows, so each
patent is returned once per inventor row with `male = false` (`male` NULL
never matches). -/
theorem filter_maleFalse (db : DB) :
    Patent.filter maleFalseBundle db =
      .ok (db.patents.flatMap (fun p =>
             List.replicate ((db.inventors.filter (fun r => r.patent == p.id)).countP
               (fun i => i.male == some false)) p),
           maleFalseBundle) := by
  refine filter_builders rfl rfl rfl rfl rfl rfl ?_
  have hm : ∀ p ∈ db.patents,
      patentMultiplicity db
        (((((((Q.tt.and .tt).and .tt).and .tt).and .tt).and .tt).and .tt))
        .tt .tt (Q.tt.and (.cond "inventors__male" (.eqVal (.boolVal false))))
        .tt p =
        .ok ((db.inventors.filter (fun r => r.patent == p.id)).countP
              (fun i => i.male == some false)) := by
    intro p _
    have hb : evalQ (evalPatentCond p)
        (((((((Q.tt.and .tt).and .tt).and .tt).and .tt).and .tt).and .tt)) =
        .ok true := rfl
    have hcq := relFactor_no_conds (q := Q.tt) rfl evalCpcCond
      (db.patent_cpc_groups.filter (fun r => r.patent == p.id))
    have hpct := relFactor_no_conds (q := Q.tt) rfl evalPctCond
      (db.pct_data.filter (fun r => r.patent == p.id))
    have hev : ∀ x ∈ db.inventors.filter (fun r => r.patent == p.id),
        evalQ (evalInvCond db x)
          (Q.tt.and (.cond "inventors__male" (.eqVal (.boolVal false)))) =
          .ok (x.male == some false) := fun x _ => rfl
    have hinv := relFactor_count
      (q := Q.tt.and (.cond "inventors__male" (.eqVal (.boolVal false)))) rfl hev
    have hasg := relFactor_no_conds (q := Q.tt) rfl (evalAsgCond db)
      (db.assignees.filter (fun r => r.patent == p.id))
    have := patentMultiplicity_eq hb hcq hpct hinv hasg
    simpa using this
  have hv : validateQ
      ((((((((((Q.tt.and .tt).and .tt).and .tt).and .tt).and .tt).and .tt).and
        .tt).and .tt).and
        (Q.tt.and (.cond "inventors__male" (.eqVal (.boolVal false))))).and .tt) =
        .ok () := rfl
  exact runFilter_eq
    (m := fun p => (db.inventors.filter (fun r => r.patent == p.id)).countP
      (fun i => i.male == some false)) hv hm

/-- A snapshot whose `withdrawn` value space has both a true and a false
row. -/
def sepWithdrawnDB : DB :=
  { emptyDB with
    patents := [samplePatent 1, { samplePatent 2 with withdrawn := true }] }

/-- A snapshot with one patent whose only PCT row is granted. -/
def sepPctDB : DB :=
  { emptyDB with
    patents := [samplePatent 1]
    pct_data := [{ patent := 1, pct_id := "P1", published_or_filed_date := 18100,
                   filed_country := "US", granted := true,
                   representation := some "P1 US" }] }

/-- A snapshot with one patent whose only inventor has `male = true`. -/
def sepMaleDB : DB :=
  { emptyDB with
    patents := [samplePatent 1]
    inventors := [{ patent := 1, location := none, first_name := some "Ann",
                    last_name := some "Lee", male := some true }] }

/-- Claim C7: for each tri-state boolean dimension (patent withdrawn, PCT
granted, inventor gender) an unset (`None`) value contributes no constraint
— the full patent set comes back — while an explicit `False` constrains the
corresponding field to equal `false`; and on snapshots whose value space
holds both boolean values, `False` and unset give different results. -/
theorem c7_tristate_booleans :
    (∀ db : DB, Patent.filter emptyBundle db = .ok (db.patents, emptyBundle)) ∧
    (∀ db : DB, Patent.filter withdrawnFalseBundle db =
      .ok (db.patents.filter (fun p => p.withdrawn == false),
           withdrawnFalseBundle)) ∧
    (∀ db : DB, Patent.filter pctFalseBundle db =
      .ok (db.patents.flatMap (fun p =>
             List.replicate ((db.pct_data.filter (fun r => r.patent == p.id)).countP
               (fun r => r.granted == false)) p),
           pctFalseBundle)) ∧
    (∀ db : DB, Patent.filter maleFalseBundle db =
      .ok (db.patents.flatMap (fun p =>
             List.replicate ((db.inventors.filter (fun r => r.patent == p.id)).countP
               (fun i => i.male == some false)) p),
           maleFalseBundle)) ∧
    (Patent.filter withdrawnFalseBundle sepWithdrawnDB).map Prod.fst ≠
      (Patent.filter emptyBundle sepWithdrawnDB).map Prod.fst ∧
    (Patent.filter pctFalseBundle sepPctDB).map Prod.fst ≠
      (Patent.filter emptyBundle sepPctDB).map Prod.fst ∧
    (Patent.filter maleFalseBundle sepMaleDB).map Prod.fst ≠
      (Patent.filter emptyBundle sepMaleDB).map Prod.fst := by
  refine ⟨filter_emptyBundle, filter_withdrawnFalse, filter_pctFalse,
    filter_maleFalse, ?_, ?_, ?_⟩ <;> decide

/-! ## Claim C4 -/

/-- A bundle whose only constraint is an inventor-location radius. -/
def locBundle (lat lng radius : Int) : FormData :=
  emptyBundle.set "inventor_location" (.locVal lat lng radius)

/-- A snapshot with one patent and two inventors, both of whose locations
lie within radius 10 of the origin. -/
def dupInvDB : DB :=
  { emptyDB with
    patents := [samplePatent 1]
    inventors := [{ patent := 1, location := some 10, first_name := some "Ann",
                    last_name := some "Lee", male := some false },
                  { patent := 1, location := some 11, first_name := some "Bob",
                    last_name := some "Kim", male := some true }]
    locations := [{ id := 10, country_code := some "US", state := none,
                    city := none, point := some (1, 1) },
                  { id := 11, country_code := some "US", state := none,
                    city := none, point := some (2, 2) }] }

/-- Claim C4, counterexample: the composed query joins the inventor table
without de-duplicating by patent identity, so the single patent of
`dupInvDB`, with two inventors satisfying the location-radius constraint,
appears twice in `filter`'s result set, not exactly once. -/
theorem c4_duplicate_rows :
    (Patent.filter (locBundle 0 0 10) dupInvDB).map Prod.fst =
      .ok [samplePatent 1, samplePatent 1] ∧
    (Patent.filter (locBundle 0 0 10) dupInvDB).map
      (fun r => r.1.count (samplePatent 1)) ≠ .ok 1 := by
  decide

/-- Claim C4 as amended: under an inventor-location-radius constraint a
patent appears once per qualifying inventor row (the join fans out and no
DISTINCT is applied): with k qualifying inventors it appears k times, and
with none it is excluded. -/
theorem c4_fanout_multiplicity (db : DB) (lat lng radius : Int) :
    Patent.filter (locBundle lat lng radius) db =
      .ok (db.patents.flatMap (fun p =>
             List.replicate ((db.inventors.filter (fun r => r.patent == p.id)).countP
               (fun i => invWithin db i lng lat radius)) p),
           locBundle lat lng radius) := by
  refine filter_builders rfl rfl rfl rfl rfl rfl ?_
  have hm : ∀ p ∈ db.patents,
      patentMultiplicity db
        (((((((Q.tt.and .tt).and .tt).and .tt).and .tt).and .tt).and .tt))
        .tt .tt
        (Q.tt.and (.cond "inventors__location__point" (.distLte lng lat radius)))
        .tt p =
        .ok ((db.inventors.filter (fun r => r.patent == p.id)).countP
              (fun i => invWithin db i lng lat radius)) := by
    intro p _
    have hb : evalQ (evalPatentCond p)
        (((((((Q.tt.and .tt).and .tt).and .tt).and .tt).and .tt).and .tt)) =
        .ok true := rfl
    have hcq := relFactor_no_conds (q := Q.tt) rfl evalCpcCond
      (db.patent_cpc_groups.filter (fun r => r.patent == p.id))
    have hpct := relFactor_no_conds (q := Q.tt) rfl evalPctCond
      (db.pct_data.filter (fun r => r.patent == p.id))
    have hev : ∀ x ∈ db.inventors.filter (fun r => r.patent == p.id),
        evalQ (evalInvCond db x)
          (Q.tt.and (.cond "inventors__location__point" (.distLte lng lat radius))) =
          .ok (invWithin db x lng lat radius) := fun x _ => rfl
    have hinv := relFactor_count
      (q := Q.tt.and (.cond "inventors__location__point" (.distLte lng lat radius)))
      rfl hev
    have hasg := relFactor_no_conds (q := Q.tt) rfl (evalAsgCond db)
      (db.assignees.filter (fun r => r.patent == p.id))
    have := patentMultiplicity_eq hb hcq hpct hinv hasg
    simpa using this
  have hv : validateQ
      ((((((((((Q.tt.and .tt).and .tt).and .tt).and .tt).and .tt).and .tt).and
        .tt).and .tt).and
        (Q.tt.and (.cond "inventors__location__point" (.distLte lng lat radius)))).and
        .tt) = .ok () := rfl
  exact runFilter_eq
    (m := fun p => (db.inventors.filter (fun r => r.patent == p.id)).countP
      (fun i => invWithin db i lng lat radius)) hv hm

/-! ## Claim C6 -/

/-- A bundle whose only constraint is a figures-count range. -/
def figRangeBundle (v : FormValue) : FormData :=
  emptyBundle.set "patent_figures_count" v

/-- A snapshot with one patent whose `figures_count` is NULL. -/
def nullFigDB : DB :=
  { emptyDB with patents := [{ samplePatent 1 with figures_count := none }] }

/-- Claim C6, counterexample: supplying only a minimum does NOT always add a
`≥` constraint — a minimum of `0` is falsy in Python, so `range_query` adds
no constraint at all, and `filter` then returns a patent whose
`figures_count` is NULL, which any `≥ 0` constraint would exclude (a NULL
comparison never matches). -/
theorem c6_zero_min_adds_no_constraint :
    range_query "figures_count" (.rangeVal (some 0) none) = .ok Q.tt ∧
    (range_query "figures_count" (.rangeVal (some 0) none)).map Q.conds ≠
      .ok [("figures_count", CondOp.gte 0)] ∧
    (Patent.filter (figRangeBundle (.rangeVal (some 0) none)) nullFigDB).map
      Prod.fst = .ok [{ samplePatent 1 with figures_count := none }] := by
  decide

/-- Empty-result helper: replicating each patent zero times gives the empty
list. -/
theorem flatMap_replicate_zero {α : Type} (ps : List α) :
    ps.flatMap (fun p => List.replicate 0 p) = [] := by
  induction ps with
  | nil => rfl
  | cons p ps ih => simp [List.flatMap_cons, ih, List.replicate]

/-- Claim C6 as amended: for a range dimension, supplying only a truthy
(non-zero, non-null) minimum adds exactly one `≥` constraint, supplying only
a truthy maximum adds exactly one `≤` constraint, supplying neither (or a
null range) adds none — a zero bound is treated as absent — and supplying
truthy bounds with min > max makes `filter` return an empty result set
rather than raise an error. -/
theorem c6_range_bounds (f : String) (v w : Int) (db : DB)
    (hv : v ≠ 0) (hw : w ≠ 0) (hvw : w < v) :
    (range_query f (.rangeVal (some v) none)).map Q.conds = .ok [(f, .gte v)] ∧
    (range_query f (.rangeVal none (some v))).map Q.conds = .ok [(f, .lte v)] ∧
    (range_query f (.rangeVal none none)).map Q.conds = .ok [] ∧
    (range_query f .null).map Q.conds = .ok [] ∧
    (Patent.filter (figRangeBundle (.rangeVal (some v) (some w))) db).map
      Prod.fst = .ok [] := by
  have hbv : boundTruthy (some v) = true := by simp [boundTruthy, hv]
  have hbw : boundTruthy (some w) = true := by simp [boundTruthy, hw]
  refine ⟨?_, ?_, ?_, ?_, ?_⟩
  · simp [range_query, FormValue.truthy, boundTruthy, hv, Q.conds, Except.map]
  · simp [range_query, FormValue.truthy, boundTruthy, hv, Q.conds, Except.map]
  · simp [range_query, FormValue.truthy, boundTruthy, Q.conds, Except.map]
  · simp [range_query, FormValue.truthy, Q.conds, Except.map]
  · have h1 : buildPatentQuery (figRangeBundle (.rangeVal (some v) (some w))) =
        .ok (((((((Q.tt.and .tt).and .tt).and .tt).and
          ((Q.tt.and (.cond "figures_count" (.gte v))).and
            (.cond "figures_count" (.lte w)))).and .tt).and .tt)) := by
      simp [buildPatentQuery, figRangeBundle, emptyBundle, FormData.set,
        FormData.get, exact_query, range_query, FormValue.truthy, boundTruthy,
        hv, hw, getStr, getStrList, FormValue.isNull, exBind_ok, pure,
        Except.pure, String.intercalate]
    have hfalse : ∀ o : Option Int, (optGte o v && optLte o w) = false := by
      intro o
      cases o with
      | none => simp [optGte, optLte]
      | some d =>
          simp only [optGte, optLte, Bool.and_eq_false_iff, decide_eq_false_iff_not]
          omega
    have hm : ∀ p ∈ db.patents,
        patentMultiplicity db
          (((((((Q.tt.and .tt).and .tt).and .tt).and
            ((Q.tt.and (.cond "figures_count" (.gte v))).and
              (.cond "figures_count" (.lte w)))).and .tt).and .tt))
          .tt .tt .tt .tt p = .ok 0 := by
      intro p _
      have hb : evalQ (evalPatentCond p)
          (((((((Q.tt.and .tt).and .tt).and .tt).and
            ((Q.tt.and (.cond "figures_count" (.gte v))).and
              (.cond "figures_count" (.lte w)))).and .tt).and .tt)) =
          .ok (((optGte p.figures_count v && optLte p.figures_count w) && true) &&
            true) := rfl
      rw [hfalse p.figures_count] at hb
      have hcq := relFactor_no_conds (q := Q.tt) rfl evalCpcCond
        (db.patent_cpc_groups.filter (fun r => r.patent == p.id))
      have hpct := relFactor_no_conds (q := Q.tt) rfl evalPctCond
        (db.pct_data.filter (fun r => r.patent == p.id))
      have hinv := relFactor_no_conds (q := Q.tt) rfl (evalInvCond db)
        (db.inventors.filter (fun r => r.patent == p.id))
      have hasg := relFactor_no_conds (q := Q.tt) rfl (evalAsgCond db)
        (db.assignees.filter (fun r => r.patent == p.id))
      have := patentMultiplicity_eq hb hcq hpct hinv hasg
      simpa using this
    have h7 := runFilter_eq (m := fun _ => 0) (by rfl) hm
    simp only [flatMap_replicate_zero] at h7
    have := filter_builders h1 rfl rfl rfl rfl rfl h7
    simp [this, Except.map]

/-- Witness for C6 at `figures_count`, bounds 5 and 3, on the one-patent
snapshot. -/
theorem c6_range_bounds_witness :
    (5 : Int) ≠ 0 ∧ (3 : Int) ≠ 0 ∧ (3 : Int) < 5 ∧
    ((range_query "figures_count" (.rangeVal (some 5) none)).map Q.conds =
      .ok [("figures_count", .gte 5)] ∧
     (range_query "figures_count" (.rangeVal none (some 5))).map Q.conds =
      .ok [("figures_count", .lte 5)] ∧
     (range_query "figures_count" (.rangeVal none none)).map Q.conds = .ok [] ∧
     (range_query "figures_count" .null).map Q.conds = .ok [] ∧
     (Patent.filter (figRangeBundle (.rangeVal (some 5) (some 3))) oneDB).map
       Prod.fst = .ok []) :=
  ⟨by decide, by decide, by decide,
   c6_range_bounds "figures_count" 5 3 oneDB (by decide) (by decide) (by decide)⟩

/-! ## Claim C5 -/

/-- The bundle of the de-duplication example: section `["A"]` selected
together with group `["A63B71/146"]`. -/
def sectionGroupBundle : FormData :=
  (emptyBundle.set "cpc_section" (.strList ["A"])).set "cpc_group"
    (.strList ["A63B71/146"])

/-- Claim C5, counterexample: `filter` is not pure in its input bundle — the
de-duplication loop reassigns the bundle's finer classification entries, so
after the call the caller's dictionary has lost the group selection
`"A63B71/146"` (pruned because it starts with the selected section "A"). -/
theorem c5_bundle_mutated :
    (Patent.filter sectionGroupBundle oneDB).map Prod.snd =
      .ok (sectionGroupBundle.set "cpc_group" (.strList [])) ∧
    sectionGroupBundle.set "cpc_group" (.strList []) ≠ sectionGroupBundle := by
  decide

/-- Claim C5 as amended: `filter`'s result is a function of the bundle and
the snapshot alone, but the call mutates the input bundle: the bundle it
leaves behind is exactly the de-duplicated one, agreeing with the input on
every key other than the three finer classification selections
(`cpc_class`, `cpc_subclass`, `cpc_group`). -/
theorem c5_mutation_scope (data d' : FormData) (db : DB) (r : List Patent)
    (h : Patent.filter data db = .ok (r, d')) :
    dedupHierarchies data = .ok d' ∧
      ∀ k, k ≠ "cpc_class" → k ≠ "cpc_subclass" → k ≠ "cpc_group" →
        d'.get k = data.get k := by
  have hd := filter_ok_dedup h
  exact ⟨hd, fun k h1 h2 h3 => dedup_get_ne h1 h2 h3 hd⟩

/-- Witness for C5 at the section/group bundle on the one-patent
snapshot. -/
theorem c5_mutation_scope_witness :
    dedupHierarchies sectionGroupBundle =
        .ok (sectionGroupBundle.set "cpc_group" (.strList [])) ∧
      ∀ k, k ≠ "cpc_class" → k ≠ "cpc_subclass" → k ≠ "cpc_group" →
        (sectionGroupBundle.set "cpc_group" (.strList [])).get k =
          sectionGroupBundle.get k :=
  c5_mutation_scope sectionGroupBundle
    (sectionGroupBundle.set "cpc_group" (.strList [])) oneDB [] (by decide)

/-! ## Claim C10 -/

/-- A bundle whose only constraint is the inventor-first-name list. -/
def fnBundle (l : List String) : FormData :=
  emptyBundle.set "inventor_first_name" (.strList l)

/-- A bundle whose only constraint is the assignee-first-name list. -/
def afnBundle (l : List String) : FormData :=
  emptyBundle.set "assignee_first_name" (.strList l)

/-- Three patents whose single inventors are named "JoMarie", "John" and
"Mary". -/
def nameDB : DB :=
  { emptyDB with
    patents := [samplePatent 1, samplePatent 2, samplePatent 3]
    inventors := [{ patent := 1, location := none, first_name := some "JoMarie",
                    last_name := some "Lee", male := some false },
                  { patent := 2, location := none, first_name := some "John",
                    last_name := some "Kim", male := some true },
                  { patent := 3, location := none, first_name := some "Mary",
                    last_name := some "Poe", male := some false }] }

/-- Claim C10: a multi-entry first-name list is joined with the EMPTY
separator into one anchored case-insensitive regex, so the filter matches
first names starting with the concatenation of all entries: structurally the
inventor (and assignee) fragment holds the single pattern
`^(entry₁entry₂…)`; semantically, `["Jo", "Ma"]` matches exactly the first
names starting with "JoMa" — the patents of inventors "John" and "Mary",
though each matches one entry, are excluded — while a single-entry list
`["Jo"]` matches the first names starting with that entry. -/
theorem c10_first_name_concatenation (l : List String) (h : l ≠ []) :
    buildInventorQuery (fnBundle l) =
      .ok (Q.tt.and (.cond "inventors__first_name"
            (.iregex ("^(" ++ String.join l ++ ")")))) ∧
    buildAssigneeQuery (afnBundle l) =
      .ok (Q.tt.and (.cond "assignees__first_name"
            (.iregex ("^(" ++ String.join l ++ ")")))) ∧
    (∀ s : String, iregexMatch ("^(" ++ String.join ["Jo", "Ma"] ++ ")") s =
      ciStartsWith s "JoMa") ∧
    (Patent.filter (fnBundle ["Jo", "Ma"]) nameDB).map Prod.fst =
      .ok [samplePatent 1] ∧
    (Patent.filter (fnBundle ["Jo"]) nameDB).map Prod.fst =
      .ok [samplePatent 1, samplePatent 2] := by
  refine ⟨?_, ?_, ?_, by decide, by decide⟩
  · simp [buildInventorQuery, fnBundle, emptyBundle, FormData.set, FormData.get,
      FormValue.truthy, h, getStrList, getLoc, FormValue.isNull, exBind_ok,
      pure, Except.pure]
  · simp [buildAssigneeQuery, afnBundle, emptyBundle, FormData.set,
      FormData.get, FormValue.truthy, h, getStrList, getLoc, FormValue.isNull,
      exBind_ok, pure, Except.pure]
  · intro s
    show iregexMatch "^(JoMa)" s = ciStartsWith s "JoMa"
    simp [iregexMatch, splitPipeAux]

/-- Witness for C10 at the two-entry list `["Jo", "Ma"]`. -/
theorem c10_first_name_concatenation_witness :
    (["Jo", "Ma"] : List String) ≠ [] ∧
    (buildInventorQuery (fnBundle ["Jo", "Ma"]) =
      .ok (Q.tt.and (.cond "inventors__first_name"
            (.iregex ("^(" ++ String.join ["Jo", "Ma"] ++ ")")))) ∧
    buildAssigneeQuery (afnBundle ["Jo", "Ma"]) =
      .ok (Q.tt.and (.cond "assignees__first_name"
            (.iregex ("^(" ++ String.join ["Jo", "Ma"] ++ ")")))) ∧
    (∀ s : String, iregexMatch ("^(" ++ String.join ["Jo", "Ma"] ++ ")") s =
      ciStartsWith s "JoMa") ∧
    (Patent.filter (fnBundle ["Jo", "Ma"]) nameDB).map Prod.fst =
      .ok [samplePatent 1] ∧
    (Patent.filter (fnBundle ["Jo"]) nameDB).map Prod.fst =
      .ok [samplePatent 1, samplePatent 2]) :=
  ⟨by decide, c10_first_name_concatenation ["Jo", "Ma"] (by decide)⟩

/-! ## Claim C3 -/

/-- Claim C3: the hierarchy de-duplicator removes from every finer level
exactly the codes that start with some code selected at any coarser level —
not only the adjacent one — leaving the rest; in particular, with section
selection `["A"]` and group selection `["A63B71/146"]` the group selection
is pruned to `[]` and the compiled classification predicate consists of the
single section constraint `^(A)`. -/
theorem c3_hierarchy_dedup :
    (∀ (d : FormData) (S C U G : List String),
      d.get "cpc_section" = .ok (.strList S) →
      d.get "cpc_class" = .ok (.strList C) →
      d.get "cpc_subclass" = .ok (.strList U) →
      d.get "cpc_group" = .ok (.strList G) →
      ∃ d' C' U' G', dedupHierarchies d = .ok d' ∧
        d'.get "cpc_section" = .ok (.strList S) ∧
        d'.get "cpc_class" = .ok (.strList C') ∧
        d'.get "cpc_subclass" = .ok (.strList U') ∧
        d'.get "cpc_group" = .ok (.strList G') ∧
        (∀ k, k ∈ C' ↔ k ∈ C ∧ ∀ s ∈ S, ¬ pyStartsWith k s) ∧
        (∀ k, k ∈ U' ↔ k ∈ U ∧ (∀ s ∈ S, ¬ pyStartsWith k s) ∧
          (∀ c ∈ C, ¬ pyStartsWith k c)) ∧
        (∀ k, k ∈ G' ↔ k ∈ G ∧ (∀ s ∈ S, ¬ pyStartsWith k s) ∧
          (∀ c ∈ C, ¬ pyStartsWith k c) ∧ (∀ u ∈ U, ¬ pyStartsWith k u))) ∧
    dedupHierarchies sectionGroupBundle =
      .ok (sectionGroupBundle.set "cpc_group" (.strList [])) ∧
    (dedupHierarchies sectionGroupBundle >>= buildCpcQuery).map Q.conds =
      .ok [("cpc_groups__cpc_group__group", .iregex "^(A)")] := by
  refine ⟨?_, by decide, by decide⟩
  intro d S C U G hS hC hU hG
  refine ⟨dedupResult d S C U G, foldPrune S C,
    foldPrune (foldPrune S C) (foldPrune S U),
    foldPrune (foldPrune (foldPrune S C) (foldPrune S U))
      (foldPrune (foldPrune S C) (foldPrune S G)),
    dedup_eq hS hC hU hG,
    ?_, dedupResult_get_class d S C U G, dedupResult_get_subclass d S C U G,
    dedupResult_get_group d S C U G,
    fun k => mem_foldPrune, fun k => mem_dedup_subclass,
    fun k => mem_dedup_group⟩
  rw [dedupResult_get_other d S C U G "cpc_section" (by decide) (by decide)
    (by decide)]
  exact hS

/-- Witness for C3's general part at the section/group bundle. -/
theorem c3_hierarchy_dedup_witness :
    ∃ d' C' U' G', dedupHierarchies sectionGroupBundle = .ok d' ∧
      d'.get "cpc_section" = .ok (.strList ["A"]) ∧
      d'.get "cpc_class" = .ok (.strList C') ∧
      d'.get "cpc_subclass" = .ok (.strList U') ∧
      d'.get "cpc_group" = .ok (.strList G') ∧
      (∀ k, k ∈ C' ↔ k ∈ ([] : List String) ∧
        ∀ s ∈ (["A"] : List String), ¬ pyStartsWith k s) ∧
      (∀ k, k ∈ U' ↔ k ∈ ([] : List String) ∧
        (∀ s ∈ (["A"] : List String), ¬ pyStartsWith k s) ∧
        (∀ c ∈ ([] : List String), ¬ pyStartsWith k c)) ∧
      (∀ k, k ∈ G' ↔ k ∈ (["A63B71/146"] : List String) ∧
        (∀ s ∈ (["A"] : List String), ¬ pyStartsWith k s) ∧
        (∀ c ∈ ([] : List String), ¬ pyStartsWith k c) ∧
        (∀ u ∈ ([] : List String), ¬ pyStartsWith k u)) :=
  c3_hierarchy_dedup.1 sectionGroupBundle ["A"] [] [] ["A63B71/146"]
    rfl rfl rfl rfl

/-! ## Claim C8 -/

theorem mem_insertById {p x : Patent} {l : List Patent} :
    x ∈ insertById p l ↔ x = p ∨ x ∈ l := by
  induction l with
  | nil => simp [insertById]
  | cons q qs ih =>
      by_cases hpq : p.id ≤ q.id
      · rw [insertById, if_pos hpq]
        simp [List.mem_cons]
      · rw [insertById, if_neg hpq]
        simp [List.mem_cons, ih]
        tauto

theorem insertById_sorted {p : Patent} {l : List Patent}
    (h : List.Pairwise (fun a b => a.id ≤ b.id) l) :
    List.Pairwise (fun a b => a.id ≤ b.id) (insertById p l) := by
  induction l with
  | nil => simp [insertById]
  | cons q qs ih =>
      rw [List.pairwise_cons] at h
      by_cases hpq : p.id ≤ q.id
      · rw [insertById, if_pos hpq, List.pairwise_cons]
        refine ⟨?_, List.pairwise_cons.mpr h⟩
        intro x hx
        rcases List.mem_cons.mp hx with hx | hx
        · exact hx ▸ hpq
        · exact le_trans hpq (h.1 x hx)
      · rw [insertById, if_neg hpq, List.pairwise_cons]
        refine ⟨?_, ih h.2⟩
        intro x hx
        rcases mem_insertById.mp hx with hx | hx
        · exact hx ▸ le_of_not_le hpq
        · exact h.1 x hx

theorem sortById_sorted (l : List Patent) :
    List.Pairwise (fun a b => a.id ≤ b.id) (sortById l) := by
  induction l with
  | nil => simp [sortById]
  | cons p ps ih => exact insertById_sorted ih


/-- `stringAgg` written with an `if`: the delimiter-join of the distinct
values, NULL when there are none. -/
theorem stringAgg_eq (delim : String) (vals : List String) :
    stringAgg delim vals =
      if dedupStrings vals = [] then none
      else some (String.intercalate delim (dedupStrings vals)) := by
  cases h : dedupStrings vals <;> simp [stringAgg, h]

/-- A one-patent snapshot with a duplicated classification link and two
geocoded inventors. -/
def dupGroupsDB : DB :=
  { emptyDB with
    patents := [samplePatent 1]
    patent_cpc_groups := [⟨1, "A63B71/146"⟩, ⟨1, "A63B71/146"⟩, ⟨1, "B01D1/00"⟩]
    inventors := [{ patent := 1, location := some 10, first_name := some "Ann",
                    last_name := some "Lee", male := some false },
                  { patent := 1, location := some 11, first_name := some "Bob",
                    last_name := some "Kim", male := some true }]
    locations := [{ id := 10, country_code := some "US", state := none,
                    city := none, point := some (1, 2) },
                  { id := 11, country_code := some "US", state := none,
                    city := none, point := some (3, 4) }] }

/-- Claim C8: `fetch_representation` orders its output by patent identity
(ascending id); each of the six per-patent aggregates is the
delimiter-join — ", " for names/codes/documents, "," for coordinate pairs —
of the DISTINCT related values (first occurrences, an order fully determined
by the snapshot, hence stable across repeated calls); and on a patent with
linked groups "A63B71/146", "A63B71/146", "B01D1/00" the aggregate holds
exactly the two distinct entries.  (For the four `Concat`-based aggregates a
patent with no related rows gets the LEFT JOIN's all-NULL row concatenated
to a whitespace/"|" string, as the concrete conjunct shows.) -/
theorem c8_representation_aggregates :
    (∀ (ps : List Patent) (db : DB),
      List.Pairwise (fun r1 r2 => r1.patent.id ≤ r2.patent.id)
        (Patent.fetch_representation ps db)) ∧
    (∀ l : List String,
      (dedupStrings l).Nodup ∧ ∀ x, x ∈ dedupStrings l ↔ x ∈ l) ∧
    (∀ (ps : List Patent) (db : DB) (r : PatentRepresentation),
      r ∈ Patent.fetch_representation ps db →
        r.cpc_groups_groups = stringAgg ", " (patentGroupCodes db r.patent) ∧
        r.pct_documents = stringAgg ", " (patentPctReprs db r.patent) ∧
        r.inventor_names = stringAgg ", " (patentInventorNames db r.patent) ∧
        r.inventor_points = stringAgg "," (patentInventorPoints db r.patent) ∧
        r.assignee_names = stringAgg ", " (patentAssigneeNames db r.patent) ∧
        r.assignee_points = stringAgg "," (patentAssigneePoints db r.patent)) ∧
    Patent.fetch_representation dupGroupsDB.patents dupGroupsDB =
      [{ patent := samplePatent 1
         cpc_groups_groups := some "A63B71/146, B01D1/00"
         pct_documents := none
         inventor_names := some "Ann Lee, Bob Kim"
         inventor_points := some "1|2,3|4"
         assignee_names := some "  "
         assignee_points := some "|" }] := by
  refine ⟨?_, fun l => ⟨dedupStrings_nodup l, fun x => mem_dedupStrings⟩, ?_,
    by decide⟩
  · intro ps db
    have hs := sortById_sorted (dedupById ps)
    unfold Patent.fetch_representation
    rw [List.pairwise_map]
    refine hs.imp ?_
    intro a b hab
    simpa [representationOf] using hab
  · intro ps db r hr
    unfold Patent.fetch_representation at hr
    obtain ⟨p, hp, rfl⟩ := List.mem_map.mp hr
    exact ⟨rfl, rfl, rfl, rfl, rfl, rfl⟩
